import Mathlib

/-!
Shallow embedding of the flowa language prototype
(src/legacy_prototype/src/flowa: tokens.py, ast_nodes.py, lexer.py,
parser.py, interpreter.py) and proofs about it.

Modelling conventions:
* Python dicts of variable bindings become ordered association lists with
  dict update semantics (overwrite in place, else append).
* Heap-allocated Environment objects become an arena: a list of scope
  records addressed by index, each holding a parent index.
* Host integers are Int; host floats are modelled as rationals (exact for
  every computation the proofs touch); host strings are String.
* Python exceptions become an explicit result type: Res.ok for normal
  values, Res.ret for the ReturnException control signal, Res.err for any
  other host exception (RuntimeError, IndexError, TypeError); quoting
  punctuation inside host messages is elided.
* Unbounded recursion and while loops take a fuel argument; running out of
  fuel yields Option.none, which is never identified with any program
  behaviour.
* Host built-in functions (print, input, map, ...) are external
  collaborators per the design document; the global scope binds their
  names, and applying one is outside the modelled fragment.
* The asyncio event loop is modelled as a task arena; asyncio.create_task
  stores an unstarted computation and returns a handle without running any
  of it, and awaiting a pending task runs it at that point (one admissible
  cooperative schedule), caching the result.
-/

namespace Flowa

/-- Token kinds, mirror of the TokenType enumeration in tokens.py. -/
inductive TokenType where
  | EOF | INDENT | DEDENT | NEWLINE
  | IDENTIFIER | NUMBER | STRING
  | DEF | ASYNC | RETURN | IF | ELSE | WHILE | FOR | IN | SPAWN | AWAIT
  | TRUE | FALSE | NONE | LAMBDA
  | PIPE | PLUS | MINUS | STAR | SLASH | EQ | EQEQ | NEQ | LT | GT | LTE | GTE
  | LPAREN | RPAREN | LBRACE | RBRACE | LBRACKET | RBRACKET | COMMA | COLON
  | DOT | ARROW
  deriving DecidableEq, Repr

/-- What str(TokenType.X) produces in Python; the parser stores this string
as the op field of binary-operation nodes. -/
def TokenType.pyStr : TokenType → String
  | .EOF => "TokenType.EOF"
  | .INDENT => "TokenType.INDENT"
  | .DEDENT => "TokenType.DEDENT"
  | .NEWLINE => "TokenType.NEWLINE"
  | .IDENTIFIER => "TokenType.IDENTIFIER"
  | .NUMBER => "TokenType.NUMBER"
  | .STRING => "TokenType.STRING"
  | .DEF => "TokenType.DEF"
  | .ASYNC => "TokenType.ASYNC"
  | .RETURN => "TokenType.RETURN"
  | .IF => "TokenType.IF"
  | .ELSE => "TokenType.ELSE"
  | .WHILE => "TokenType.WHILE"
  | .FOR => "TokenType.FOR"
  | .IN => "TokenType.IN"
  | .SPAWN => "TokenType.SPAWN"
  | .AWAIT => "TokenType.AWAIT"
  | .TRUE => "TokenType.TRUE"
  | .FALSE => "TokenType.FALSE"
  | .NONE => "TokenType.NONE"
  | .LAMBDA => "TokenType.LAMBDA"
  | .PIPE => "TokenType.PIPE"
  | .PLUS => "TokenType.PLUS"
  | .MINUS => "TokenType.MINUS"
  | .STAR => "TokenType.STAR"
  | .SLASH => "TokenType.SLASH"
  | .EQ => "TokenType.EQ"
  | .EQEQ => "TokenType.EQEQ"
  | .NEQ => "TokenType.NEQ"
  | .LT => "TokenType.LT"
  | .GT => "TokenType.GT"
  | .LTE => "TokenType.LTE"
  | .GTE => "TokenType.GTE"
  | .LPAREN => "TokenType.LPAREN"
  | .RPAREN => "TokenType.RPAREN"
  | .LBRACE => "TokenType.LBRACE"
  | .RBRACE => "TokenType.RBRACE"
  | .LBRACKET => "TokenType.LBRACKET"
  | .RBRACKET => "TokenType.RBRACKET"
  | .COMMA => "TokenType.COMMA"
  | .COLON => "TokenType.COLON"
  | .DOT => "TokenType.DOT"
  | .ARROW => "TokenType.ARROW"

/-- Token payload: the value field of a Token (None, int, float or str). -/
inductive TValue where
  | none
  | int (n : Int)
  | float (q : Rat)
  | str (s : String)
  deriving DecidableEq, Repr

/-- Token record, mirror of the Token dataclass in tokens.py. -/
structure Token where
  type : TokenType
  value : TValue := TValue.none
  line : Nat := 0
  column : Nat := 0
  deriving DecidableEq, Repr

/-- Literal payloads carried by Literal tree nodes (ast_nodes.py stores a
host value there: None, bool, int, float or str). -/
inductive Const where
  | none
  | bool (b : Bool)
  | int (n : Int)
  | float (q : Rat)
  | str (s : String)
  deriving DecidableEq, Repr

/-- Program tree, mirror of ast_nodes.py. Statement and expression nodes
share one type, as in the source where everything derives ASTNode; the
constructors below functionDef..assign are the non-Expr statement forms,
the rest subclass Expr. -/
inductive Node where
  | functionDef (name : String) (args : List String) (body : List Node) (isAsync : Bool)
  | ret (value : Option Node)
  | ifStmt (test : Node) (body : List Node) (orelse : List Node)
  | whileStmt (test : Node) (body : List Node)
  | assign (target : String) (value : Node)
  | binOp (left : Node) (op : String) (right : Node)
  | call (func : Node) (args : List Node)
  | pipeline (left : Node) (right : Node)
  | spawn (c : Node)
  | awaitE (value : Node)
  | lit (value : Const)
  | name (id : String)
  | lam (args : List String) (body : Node)
  | listLit (elements : List Node)

/-- Runtime values. closure packs a Function or AsyncFunction object
(declaration fields plus the index of the captured environment); coroutine
is the unstarted coroutine object obtained by calling an AsyncFunction
from synchronous code; builtin names a host callable installed in the
globals; task is an asyncio task handle. -/
inductive Value where
  | none
  | bool (b : Bool)
  | int (n : Int)
  | float (q : Rat)
  | str (s : String)
  | list (elems : List Value)
  | closure (isAsync : Bool) (name : String) (params : List String) (body : List Node) (env : Nat)
  | coroutine (name : String) (params : List String) (body : List Node) (env : Nat) (args : List Value)
  | builtin (name : String)
  | task (tid : Nat)

/-- Result of executing a statement or evaluating an expression: a normal
value, the ReturnException control signal, or a host exception message. -/
inductive Res where
  | ok (v : Value)
  | ret (v : Value)
  | err (msg : String)

/-- State of a spawned task: pending holds the unstarted body of the
coroutine handed to asyncio.create_task; done caches its result. -/
inductive TaskState where
  | pending (params : List String) (body : List Node) (env : Nat) (args : List Value)
  | done (v : Value)

/-- One Environment object: its values dict and its parent reference
(an index into the scope arena). -/
structure Env where
  values : List (String × Value)
  parent : Option Nat

/-- Machine state: the arena of Environment objects plus the set of tasks
known to the event loop. -/
structure MState where
  scopes : List Env
  tasks : List TaskState

/-- Python dict update: overwrite the binding in place if the key exists,
otherwise append it (Environment.define). -/
def defineVar : List (String × Value) → String → Value → List (String × Value)
  | [], n, v => [(n, v)]
  | (k, w) :: rest, n, v =>
    if k = n then (n, v) :: rest else (k, w) :: defineVar rest n v

/-- Lookup in one values dict. -/
def lookupVar : List (String × Value) → String → Option Value
  | [], _ => Option.none
  | (k, w) :: rest, n => if k = n then some w else lookupVar rest n

/-- Environment.get: walk the parent chain until the name is found.
Parent indices always point to previously created scopes, so the chain
length is bounded by the arena size, which serves as fuel. -/
def getVarAux : Nat → List Env → Nat → String → Option Value
  | 0, _, _, _ => Option.none
  | Nat.succ fuel, scopes, i, n =>
    match scopes.get? i with
    | Option.none => Option.none
    | some e =>
      match lookupVar e.values n with
      | some v => some v
      | Option.none =>
        match e.parent with
        | some p => getVarAux fuel scopes p n
        | Option.none => Option.none

def MState.getVar (ms : MState) (i : Nat) (n : String) : Option Value :=
  getVarAux ms.scopes.length ms.scopes i n

/-- Environment.define on the scope with index i. -/
def MState.defineIn (ms : MState) (i : Nat) (n : String) (v : Value) : MState :=
  match ms.scopes.get? i with
  | some e => { ms with scopes := ms.scopes.set i { e with values := defineVar e.values n v } }
  | Option.none => ms

/-- Environment(parent): allocate a fresh child scope at the end of the
arena; its index is the arena length before the push. -/
def MState.pushScope (ms : MState) (parent : Nat) : MState :=
  { ms with scopes := ms.scopes ++ [{ values := [], parent := some parent }] }

/-- Numeric view for int arithmetic: Python bool is a subclass of int. -/
def toIntNum : Value → Option Int
  | Value.int n => some n
  | Value.bool b => some (if b then 1 else 0)
  | _ => Option.none

/-- Numeric view including floats (floats modelled as rationals). -/
def toRatNum : Value → Option Rat
  | Value.int n => some (n : Rat)
  | Value.bool b => some (if b then (1 : Rat) else 0)
  | Value.float q => some q
  | _ => Option.none

/-- Host + semantics: string and list concatenation, int arithmetic when
both operands are int-like, float arithmetic when a float is involved,
TypeError otherwise. -/
def pyAdd (l r : Value) : Res :=
  match l, r with
  | Value.str a, Value.str b => Res.ok (Value.str (a ++ b))
  | Value.list a, Value.list b => Res.ok (Value.list (a ++ b))
  | _, _ =>
    match toIntNum l, toIntNum r with
    | some a, some b => Res.ok (Value.int (a + b))
    | _, _ =>
      match toRatNum l, toRatNum r with
      | some a, some b => Res.ok (Value.float (a + b))
      | _, _ => Res.err "unsupported operand types for +"

def pySub (l r : Value) : Res :=
  match toIntNum l, toIntNum r with
  | some a, some b => Res.ok (Value.int (a - b))
  | _, _ =>
    match toRatNum l, toRatNum r with
    | some a, some b => Res.ok (Value.float (a - b))
    | _, _ => Res.err "unsupported operand types for -"

/-- Host * semantics, including sequence repetition. -/
def pyMul (l r : Value) : Res :=
  match l, r with
  | Value.str s, Value.int n => Res.ok (Value.str (String.join (List.replicate n.toNat s)))
  | Value.int n, Value.str s => Res.ok (Value.str (String.join (List.replicate n.toNat s)))
  | Value.list xs, Value.int n => Res.ok (Value.list (List.flatten (List.replicate n.toNat xs)))
  | Value.int n, Value.list xs => Res.ok (Value.list (List.flatten (List.replicate n.toNat xs)))
  | _, _ =>
    match toIntNum l, toIntNum r with
    | some a, some b => Res.ok (Value.int (a * b))
    | _, _ =>
      match toRatNum l, toRatNum r with
      | some a, some b => Res.ok (Value.float (a * b))
      | _, _ => Res.err "unsupported operand types for *"

/-- Host / semantics: true division, always producing a float; division by
zero is a host ZeroDivisionError. -/
def pyDiv (l r : Value) : Res :=
  match toRatNum l, toRatNum r with
  | some a, some b =>
    if b = 0 then Res.err "division by zero" else Res.ok (Value.float (a / b))
  | _, _ => Res.err "unsupported operand types for /"

def pyLt (l r : Value) : Res :=
  match l, r with
  | Value.str a, Value.str b => Res.ok (Value.bool (decide (a < b)))
  | _, _ =>
    match toRatNum l, toRatNum r with
    | some a, some b => Res.ok (Value.bool (decide (a < b)))
    | _, _ => Res.err "unsupported operand types for comparison"

def pyGt (l r : Value) : Res :=
  match l, r with
  | Value.str a, Value.str b => Res.ok (Value.bool (decide (b < a)))
  | _, _ =>
    match toRatNum l, toRatNum r with
    | some a, some b => Res.ok (Value.bool (decide (b < a)))
    | _, _ => Res.err "unsupported operand types for comparison"

mutual
/-- Host == semantics: numbers compare across int, bool and float by
value; strings and lists compare structurally; None equals None; values of
different shapes compare unequal. Distinct closure, coroutine and builtin
objects compare by identity in the host; the model returns false there,
matching any run that never compares an object with itself. -/
def pyEqB : Value → Value → Bool
  | Value.str a, Value.str b => a == b
  | Value.none, Value.none => true
  | Value.list a, Value.list b => pyEqList a b
  | l, r =>
    match toRatNum l, toRatNum r with
    | some a, some b => a == b
    | _, _ => false

def pyEqList : List Value → List Value → Bool
  | [], [] => true
  | a :: as_, b :: bs => pyEqB a b && pyEqList as_ bs
  | _, _ => false
end

/-- Interpreter.apply_op (interpreter.py): the fixed operator table. The
parser emits str(TokenType.X) spellings; the plain spellings are also
accepted, as in the source. -/
def applyOp (op : String) (l r : Value) : Res :=
  if op = "TokenType.PLUS" ∨ op = "+" then pyAdd l r
  else if op = "TokenType.MINUS" ∨ op = "-" then pySub l r
  else if op = "TokenType.STAR" ∨ op = "*" then pyMul l r
  else if op = "TokenType.SLASH" ∨ op = "/" then pyDiv l r
  else if op = "TokenType.GT" ∨ op = ">" then pyGt l r
  else if op = "TokenType.LT" ∨ op = "<" then pyLt l r
  else if op = "TokenType.EQEQ" ∨ op = "==" then Res.ok (Value.bool (pyEqB l r))
  else Res.err ("Unknown operator " ++ op)

/-- Host truthiness, used by if and while tests. -/
def truthy : Value → Bool
  | Value.none => false
  | Value.bool b => b
  | Value.int n => n != 0
  | Value.float q => q != 0
  | Value.str s => s != ""
  | Value.list l => !l.isEmpty
  | _ => true

def constToValue : Const → Value
  | Const.none => Value.none
  | Const.bool b => Value.bool b
  | Const.int n => Value.int n
  | Const.float q => Value.float q
  | Const.str s => Value.str s

/-- Exception-propagating sequencing: run the continuation only on a
normal value; ReturnException and host errors propagate, as unwinding
does in the source. -/
def andThen (r : Option (MState × Res)) (k : MState → Value → Option (MState × Res)) :
    Option (MState × Res) :=
  match r with
  | Option.none => Option.none
  | some (ms, Res.ok v) => k ms v
  | some (ms, r) => some (ms, r)

/-- Sequencing for argument-list evaluation: a successful list of values
is packed as Res.ok applied to a Value.list (a convention internal to the
Req.exprs and Req.aexprs requests below). -/
def andThenArgs (r : Option (MState × Res)) (k : MState → List Value → Option (MState × Res)) :
    Option (MState × Res) :=
  match r with
  | Option.none => Option.none
  | some (ms, Res.ok (Value.list vs)) => k ms vs
  | some (ms, Res.ok v) => some (ms, Res.ok v)
  | some (ms, r) => some (ms, r)

/-- Parameter binding loop of Function.call (shared by AsyncFunction.call):
for i, arg in enumerate(args) define declaration.args[i]; indexing past
the declared parameters raises the host IndexError. Surplus parameters are
simply never bound. -/
def bindParams : MState → Nat → List String → Nat → List Value → MState × Option String
  | ms, _, _, _, [] => (ms, Option.none)
  | ms, idx, ps, i, a :: rest =>
    match ps.get? i with
    | some p => bindParams (ms.defineIn idx p a) idx ps (i + 1) rest
    | Option.none => (ms, some "list index out of range")

/-- Update one task slot (the event loop recording a finished task). -/
def MState.setTask (ms : MState) (tid : Nat) (t : TaskState) : MState :=
  { ms with tasks := ms.tasks.set tid t }

/-- Requests to the interpreter step function. The interpreter methods of
interpreter.py are mutually recursive; to keep every definition reducible
by the kernel they are implemented as one fuel-indexed function over this
request type, with one constructor per method (wrappers with the source
names follow below).
  expr   = Interpreter.evaluate
  exprs  = the argument-list comprehension inside evaluate
  callv  = the call dispatch inside the evaluate Call branch
  pipev  = the dispatch inside the evaluate Pipeline branch
  callf  = Function.call
  stmt   = Interpreter.execute
  wloop  = the while loop inside execute
  block  = Interpreter.execute_block
  aexpr  = Interpreter.evaluate_async
  aexprs = the argument-list comprehension inside evaluate_async
  astmt  = Interpreter.execute_async
  awloop = the while loop inside execute_async
  ablock = Interpreter.execute_block_async
  acallf = AsyncFunction.call -/
inductive Req where
  | expr (ms : MState) (env : Nat) (e : Node)
  | exprs (ms : MState) (env : Nat) (es : List Node)
  | callv (ms : MState) (callee : Value) (args : List Value)
  | pipev (ms : MState) (callee : Value) (args : List Value)
  | callf (ms : MState) (params : List String) (body : List Node) (cenv : Nat) (args : List Value)
  | stmt (ms : MState) (env : Nat) (s : Node)
  | wloop (ms : MState) (env : Nat) (test : Node) (body : List Node)
  | block (ms : MState) (env : Nat) (ss : List Node)
  | aexpr (ms : MState) (env : Nat) (e : Node)
  | aexprs (ms : MState) (env : Nat) (es : List Node)
  | astmt (ms : MState) (env : Nat) (s : Node)
  | awloop (ms : MState) (env : Nat) (test : Node) (body : List Node)
  | ablock (ms : MState) (env : Nat) (ss : List Node)
  | acallf (ms : MState) (params : List String) (body : List Node) (cenv : Nat) (args : List Value)

/-- The interpreter. Each case is a direct transcription of the
corresponding method of interpreter.py; comments cite the behaviour being
mirrored. Running out of fuel yields Option.none. -/
def step : Nat → Req → Option (MState × Res)
  | 0, _ => Option.none
  | Nat.succ f, Req.expr ms env e =>
    -- Interpreter.evaluate (lines 166 to 213). Node kinds it does not
    -- handle, Spawn and Await included, fall through to return None.
    match e with
    | Node.lit c => some (ms, Res.ok (constToValue c))
    | Node.name id =>
      match ms.getVar env id with
      | some v => some (ms, Res.ok v)
      | Option.none => some (ms, Res.err ("Undefined variable " ++ id))
    | Node.binOp l op r =>
      andThen (step f (Req.expr ms env l)) (fun ms1 lv =>
        andThen (step f (Req.expr ms1 env r)) (fun ms2 rv =>
          some (ms2, applyOp op lv rv)))
    | Node.call fe args =>
      andThen (step f (Req.expr ms env fe)) (fun ms1 callee =>
        andThenArgs (step f (Req.exprs ms1 env args)) (fun ms2 argv =>
          step f (Req.callv ms2 callee argv)))
    | Node.pipeline l r =>
      andThen (step f (Req.expr ms env l)) (fun ms1 lv =>
        match r with
        | Node.call fe cargs =>
          andThen (step f (Req.expr ms1 env fe)) (fun ms2 callee =>
            andThenArgs (step f (Req.exprs ms2 env cargs)) (fun ms3 argv =>
              step f (Req.pipev ms3 callee (lv :: argv))))
        | Node.name id =>
          andThen (step f (Req.expr ms1 env (Node.name id))) (fun ms2 callee =>
            step f (Req.pipev ms2 callee [lv]))
        | _ => some (ms1, Res.err "Invalid pipeline right hand side"))
    | Node.lam args body =>
      some (ms, Res.ok (Value.closure false "<lambda>" args [Node.ret (some body)] env))
    | Node.listLit elems =>
      andThenArgs (step f (Req.exprs ms env elems)) (fun ms1 vs =>
        some (ms1, Res.ok (Value.list vs)))
    | _ => some (ms, Res.ok Value.none)
  | Nat.succ f, Req.exprs ms env es =>
    -- left to right evaluation of an expression list
    match es with
    | [] => some (ms, Res.ok (Value.list []))
    | e :: rest =>
      andThen (step f (Req.expr ms env e)) (fun ms1 v =>
        andThenArgs (step f (Req.exprs ms1 env rest)) (fun ms2 vs =>
          some (ms2, Res.ok (Value.list (v :: vs)))))
  | Nat.succ f, Req.callv ms callee argv =>
    -- dispatch of the evaluate Call branch: a Function (AsyncFunction
    -- included, whose async call method invoked from synchronous code
    -- yields an unstarted coroutine object) is invoked; a host callable
    -- dispatches to the host; anything else raises Not a function
    match callee with
    | Value.closure true n ps body cenv =>
      some (ms, Res.ok (Value.coroutine n ps body cenv argv))
    | Value.closure false _ ps body cenv => step f (Req.callf ms ps body cenv argv)
    | Value.builtin b =>
      some (ms, Res.err ("host builtin " ++ b ++ " is outside the modelled fragment"))
    | _ => some (ms, Res.err "Not a function")
  | Nat.succ f, Req.pipev ms callee argv =>
    -- dispatch of the evaluate Pipeline branch (the call and bare-name
    -- right hand sides reach the same checks): a Function is invoked, a
    -- host callable dispatches to the host, and any other value falls
    -- through to the trailing raise
    match callee with
    | Value.closure true n ps body cenv =>
      some (ms, Res.ok (Value.coroutine n ps body cenv argv))
    | Value.closure false _ ps body cenv => step f (Req.callf ms ps body cenv argv)
    | Value.builtin b =>
      some (ms, Res.err ("host builtin " ++ b ++ " is outside the modelled fragment"))
    | _ => some (ms, Res.err "Invalid pipeline right hand side")
  | Nat.succ f, Req.callf ms ps body cenv args =>
    -- Function.call (lines 35 to 44): allocate a child of the closure
    -- environment, bind parameters positionally, run the body, catch the
    -- ReturnException at this boundary, return None on normal fall through
    match bindParams (ms.pushScope cenv) ms.scopes.length ps 0 args with
    | (ms2, some m) => some (ms2, Res.err m)
    | (ms2, Option.none) =>
      match step f (Req.block ms2 ms.scopes.length body) with
      | Option.none => Option.none
      | some (ms3, Res.ret v) => some (ms3, Res.ok v)
      | some (ms3, Res.err m) => some (ms3, Res.err m)
      | some (ms3, Res.ok _) => some (ms3, Res.ok Value.none)
  | Nat.succ f, Req.stmt ms env s =>
    -- Interpreter.execute (lines 103 to 124); the catch-all covers every
    -- Expr node, evaluated for effect
    match s with
    | Node.functionDef n args body isAsync =>
      some (ms.defineIn env n (Value.closure isAsync n args body env), Res.ok Value.none)
    | Node.ret v =>
      match v with
      | Option.none => some (ms, Res.ret Value.none)
      | some e => andThen (step f (Req.expr ms env e)) (fun ms1 rv => some (ms1, Res.ret rv))
    | Node.assign target e =>
      andThen (step f (Req.expr ms env e)) (fun ms1 v =>
        some (ms1.defineIn env target v, Res.ok Value.none))
    | Node.ifStmt test body orelse =>
      andThen (step f (Req.expr ms env test)) (fun ms1 tv =>
        if truthy tv then
          step f (Req.block (ms1.pushScope env) ms1.scopes.length body)
        else
          match orelse with
          | [] => some (ms1, Res.ok Value.none)
          | _ => step f (Req.block (ms1.pushScope env) ms1.scopes.length orelse))
    | Node.whileStmt test body => step f (Req.wloop ms env test body)
    | e => andThen (step f (Req.expr ms env e)) (fun ms1 _ => some (ms1, Res.ok Value.none))
  | Nat.succ f, Req.wloop ms env test body =>
    -- the while loop inside execute; a fresh child scope per iteration
    andThen (step f (Req.expr ms env test)) (fun ms1 tv =>
      if truthy tv then
        match step f (Req.block (ms1.pushScope env) ms1.scopes.length body) with
        | Option.none => Option.none
        | some (ms2, Res.ok _) => step f (Req.wloop ms2 env test body)
        | some (ms2, r) => some (ms2, r)
      else some (ms1, Res.ok Value.none))
  | Nat.succ f, Req.block ms env ss =>
    -- Interpreter.execute_block: statements in order; a ReturnException
    -- or error from one statement aborts the remaining statements
    match ss with
    | [] => some (ms, Res.ok Value.none)
    | s :: rest =>
      match step f (Req.stmt ms env s) with
      | Option.none => Option.none
      | some (ms1, Res.ok _) => step f (Req.block ms1 env rest)
      | some (ms1, r) => some (ms1, r)
  | Nat.succ f, Req.aexpr ms env e =>
    -- Interpreter.evaluate_async (lines 215 to 266)
    match e with
    | Node.awaitE inner =>
      -- await: a Future or Task suspends this unit until the task
      -- resolves (modelled as the event loop running the pending task at
      -- this point and caching its result; a second await of the same
      -- handle yields the cached result); an unstarted coroutine is run
      -- to completion; a plain value passes through
      andThen (step f (Req.aexpr ms env inner)) (fun ms1 v =>
        match v with
        | Value.task tid =>
          match ms1.tasks.get? tid with
          | some (TaskState.pending ps body cenv args) =>
            match step f (Req.acallf ms1 ps body cenv args) with
            | Option.none => Option.none
            | some (ms2, Res.ok v) => some (ms2.setTask tid (TaskState.done v), Res.ok v)
            | some (ms2, r) => some (ms2, r)
          | some (TaskState.done v) => some (ms1, Res.ok v)
          | Option.none => some (ms1, Res.err "invalid task handle")
        | Value.coroutine _ ps body cenv args => step f (Req.acallf ms1 ps body cenv args)
        | v => some (ms1, Res.ok v))
    | Node.spawn c =>
      -- spawn: only a Call node is inspected; its callee and arguments
      -- are evaluated, and an AsyncFunction callee is handed to
      -- asyncio.create_task, which returns a handle without running any
      -- of the body; everything else raises at this point
      match c with
      | Node.call fe cargs =>
        andThen (step f (Req.aexpr ms env fe)) (fun ms1 callee =>
          andThenArgs (step f (Req.aexprs ms1 env cargs)) (fun ms2 argv =>
            match callee with
            | Value.closure true _ ps body cenv =>
              some ({ ms2 with tasks := ms2.tasks ++ [TaskState.pending ps body cenv argv] },
                    Res.ok (Value.task ms2.tasks.length))
            | _ => some (ms2, Res.err "Spawn requires a call to an async function")))
      | _ => some (ms, Res.err "Spawn requires a call to an async function")
    | Node.binOp l op r =>
      andThen (step f (Req.aexpr ms env l)) (fun ms1 lv =>
        andThen (step f (Req.aexpr ms1 env r)) (fun ms2 rv =>
          some (ms2, applyOp op lv rv)))
    | Node.call fe args =>
      andThen (step f (Req.aexpr ms env fe)) (fun ms1 callee =>
        andThenArgs (step f (Req.aexprs ms1 env args)) (fun ms2 argv =>
          match callee with
          | Value.closure true _ ps body cenv => step f (Req.acallf ms2 ps body cenv argv)
          | Value.closure false _ ps body cenv => step f (Req.callf ms2 ps body cenv argv)
          | Value.builtin b =>
            some (ms2, Res.err ("host builtin " ++ b ++ " is outside the modelled fragment"))
          | _ =>
            -- no callable matched: the branch falls off the dispatch
            -- chain away to the trailing return self.evaluate(expr),
            -- which re-evaluates the whole call synchronously
            step f (Req.expr ms2 env e)))
    | Node.listLit elems =>
      andThenArgs (step f (Req.aexprs ms env elems)) (fun ms1 vs =>
        some (ms1, Res.ok (Value.list vs)))
    | _ => step f (Req.expr ms env e)
  | Nat.succ f, Req.aexprs ms env es =>
    match es with
    | [] => some (ms, Res.ok (Value.list []))
    | e :: rest =>
      andThen (step f (Req.aexpr ms env e)) (fun ms1 v =>
        andThenArgs (step f (Req.aexprs ms1 env rest)) (fun ms2 vs =>
          some (ms2, Res.ok (Value.list (v :: vs)))))
  | Nat.succ f, Req.astmt ms env s =>
    -- Interpreter.execute_async (lines 144 to 164)
    match s with
    | Node.ret v =>
      match v with
      | Option.none => some (ms, Res.ret Value.none)
      | some e => andThen (step f (Req.aexpr ms env e)) (fun ms1 rv => some (ms1, Res.ret rv))
    | Node.assign target e =>
      andThen (step f (Req.aexpr ms env e)) (fun ms1 v =>
        some (ms1.defineIn env target v, Res.ok Value.none))
    | Node.ifStmt test body orelse =>
      andThen (step f (Req.aexpr ms env test)) (fun ms1 tv =>
        if truthy tv then
          step f (Req.ablock (ms1.pushScope env) ms1.scopes.length body)
        else
          match orelse with
          | [] => some (ms1, Res.ok Value.none)
          | _ => step f (Req.ablock (ms1.pushScope env) ms1.scopes.length orelse))
    | Node.whileStmt test body => step f (Req.awloop ms env test body)
    | Node.functionDef _ _ _ _ => step f (Req.stmt ms env s)
    | e => andThen (step f (Req.aexpr ms env e)) (fun ms1 _ => some (ms1, Res.ok Value.none))
  | Nat.succ f, Req.awloop ms env test body =>
    andThen (step f (Req.aexpr ms env test)) (fun ms1 tv =>
      if truthy tv then
        match step f (Req.ablock (ms1.pushScope env) ms1.scopes.length body) with
        | Option.none => Option.none
        | some (ms2, Res.ok _) => step f (Req.awloop ms2 env test body)
        | some (ms2, r) => some (ms2, r)
      else some (ms1, Res.ok Value.none))
  | Nat.succ f, Req.ablock ms env ss =>
    match ss with
    | [] => some (ms, Res.ok Value.none)
    | s :: rest =>
      match step f (Req.astmt ms env s) with
      | Option.none => Option.none
      | some (ms1, Res.ok _) => step f (Req.ablock ms1 env rest)
      | some (ms1, r) => some (ms1, r)
  | Nat.succ f, Req.acallf ms ps body cenv args =>
    -- AsyncFunction.call (lines 46 to 56), by this point being awaited
    match bindParams (ms.pushScope cenv) ms.scopes.length ps 0 args with
    | (ms2, some m) => some (ms2, Res.err m)
    | (ms2, Option.none) =>
      match step f (Req.ablock ms2 ms.scopes.length body) with
      | Option.none => Option.none
      | some (ms3, Res.ret v) => some (ms3, Res.ok v)
      | some (ms3, Res.err m) => some (ms3, Res.err m)
      | some (ms3, Res.ok _) => some (ms3, Res.ok Value.none)

/-- Interpreter.evaluate. -/
def evalExpr (fuel : Nat) (ms : MState) (env : Nat) (e : Node) : Option (MState × Res) :=
  step fuel (Req.expr ms env e)

/-- Argument-list evaluation inside evaluate; a successful run yields
Res.ok of a Value.list holding the argument values. -/
def evalList (fuel : Nat) (ms : MState) (env : Nat) (es : List Node) : Option (MState × Res) :=
  step fuel (Req.exprs ms env es)

/-- Function.call. -/
def callFunction (fuel : Nat) (ms : MState) (params : List String) (body : List Node)
    (cenv : Nat) (args : List Value) : Option (MState × Res) :=
  step fuel (Req.callf ms params body cenv args)

/-- Interpreter.execute. -/
def execStmt (fuel : Nat) (ms : MState) (env : Nat) (s : Node) : Option (MState × Res) :=
  step fuel (Req.stmt ms env s)

/-- Interpreter.execute_block. -/
def execBlock (fuel : Nat) (ms : MState) (env : Nat) (ss : List Node) : Option (MState × Res) :=
  step fuel (Req.block ms env ss)

/-- Interpreter.evaluate_async. -/
def evalAsyncExpr (fuel : Nat) (ms : MState) (env : Nat) (e : Node) : Option (MState × Res) :=
  step fuel (Req.aexpr ms env e)

/-- Argument-list evaluation inside evaluate_async. -/
def evalAsyncList (fuel : Nat) (ms : MState) (env : Nat) (es : List Node) : Option (MState × Res) :=
  step fuel (Req.aexprs ms env es)

/-- AsyncFunction.call. -/
def callAsyncFunction (fuel : Nat) (ms : MState) (params : List String) (body : List Node)
    (cenv : Nat) (args : List Value) : Option (MState × Res) :=
  step fuel (Req.acallf ms params body cenv args)

/-- The globals of a fresh Interpreter: the built-in names installed by
the constructor, bound to host callables. -/
def initGlobals : Env :=
  { values :=
      [ ("print", Value.builtin "print"), ("input", Value.builtin "input"),
        ("map", Value.builtin "map"), ("filter", Value.builtin "filter"),
        ("sum", Value.builtin "sum"), ("list", Value.builtin "list"),
        ("int", Value.builtin "int"), ("float", Value.builtin "float"),
        ("str", Value.builtin "str"), ("len", Value.builtin "len") ],
    parent := Option.none }

def initState : MState := { scopes := [initGlobals], tasks := [] }

/-- Outcome of Interpreter.interpret: either the whole module ran, or some
exception was caught by the try block and printed as Runtime Error. -/
inductive TopOutcome where
  | normal
  | reported (msg : String)
  deriving DecidableEq, Repr

/-- Interpreter.interpret: run the top-level statements in the global
environment inside one try block; any exception, the ReturnException
included, is caught there and reported (a ReturnException has an empty
message, so only the prefix is printed). -/
def interpret (fuel : Nat) (stmts : List Node) : Option (MState × TopOutcome) :=
  match execBlock fuel initState 0 stmts with
  | Option.none => Option.none
  | some (ms, Res.ok _) => some (ms, TopOutcome.normal)
  | some (ms, Res.err m) => some (ms, TopOutcome.reported ("Runtime Error: " ++ m))
  | some (ms, Res.ret _) => some (ms, TopOutcome.reported "Runtime Error: ")

/-- Observation helper: final outcome plus the value of one global. -/
def globalResult (r : Option (MState × TopOutcome)) (n : String) :
    Option (TopOutcome × Option Value) :=
  r.map (fun p => (p.2, p.1.getVar 0 n))

/-! Parser (parser.py) -/

/-- ParserError: message plus the offending token (quoting punctuation in
messages is elided). -/
structure PErr where
  message : String
  tok : Token
  deriving DecidableEq, Repr

/-- Parser.peek. The parser only inspects positions up to the final EOF
token of a lexed stream, so the default is never consulted on lexer
output; it mirrors the host behaviour of never advancing past EOF. -/
def peekTok (ts : List Token) (pos : Nat) : Token :=
  (ts.get? pos).getD { type := TokenType.EOF }

/-- Parser.is_at_end. -/
def isAtEnd (ts : List Token) (pos : Nat) : Bool :=
  (peekTok ts pos).type = TokenType.EOF

/-- Parser.check: False at end of input, else a type comparison. -/
def checkTok (ts : List Token) (pos : Nat) (t : TokenType) : Bool :=
  if isAtEnd ts pos then false else (peekTok ts pos).type = t

/-- Parser.match over a list of candidate types: on success the position
advances past the matched token. -/
def matchTok (ts : List Token) (pos : Nat) : List TokenType → Option (TokenType × Nat)
  | [] => Option.none
  | t :: rest => if checkTok ts pos t then some (t, pos + 1) else matchTok ts pos rest

/-- Parser.consume: the expected token plus the advanced position, or a
ParserError naming the construct expected. -/
def consumeTok (ts : List Token) (pos : Nat) (t : TokenType) (msg : String) :
    Except PErr (Token × Nat) :=
  if checkTok ts pos t then Except.ok (peekTok ts pos, pos + 1)
  else Except.error { message := msg, tok := peekTok ts pos }

/-- Literal payload of a NUMBER, STRING, TRUE, FALSE or NONE token. -/
def tvalToConst : TValue → Const
  | TValue.none => Const.none
  | TValue.int n => Const.int n
  | TValue.float q => Const.float q
  | TValue.str s => Const.str s

/-- The string payload of an IDENTIFIER token (always present on lexer
output). -/
def tvalToString : TValue → String
  | TValue.str s => s
  | _ => ""

/-- Requests to the parser step function, one per method of the Parser
class (the recursive-descent methods are mutually recursive; as with the
interpreter they are implemented as one fuel-indexed function so that
every definition reduces in the kernel). Loop constructors carry the
accumulated left operand of the corresponding while loop in the source.
  moduleBody = the loop in Parser.parse
  decl       = Parser.declaration
  funcDef    = Parser.function_def (the DEF token already consumed)
  fdParams   = the parameter-name loop inside function_def
  blockB     = Parser.block
  blockItems = the statement loop inside block
  stmtS      = Parser.statement
  retStmt    = Parser.return_stmt
  ifS        = Parser.if_stmt
  whileS     = Parser.while_stmt
  expr       = Parser.expression
  pipe       = Parser.pipeline, pipeLoop its while loop
  eq         = Parser.equality, eqLoop its while loop
  comp       = Parser.comparison, compLoop its while loop
  term       = Parser.term, termLoop its while loop
  factor     = Parser.factor, factorLoop its while loop
  unary      = Parser.unary
  callC      = Parser.call, callLoop its postfix loop
  callArgs   = the argument loop inside call
  primary    = Parser.primary
  listElems  = the element loop inside the list-literal branch of primary
  lamParams  = the parameter loop inside the lambda branch of primary -/
inductive PReq where
  | moduleBody (pos : Nat)
  | decl (pos : Nat)
  | funcDef (isAsync : Bool) (pos : Nat)
  | fdParams (pos : Nat)
  | blockB (pos : Nat)
  | blockItems (pos : Nat)
  | stmtS (pos : Nat)
  | retStmt (pos : Nat)
  | ifS (pos : Nat)
  | whileS (pos : Nat)
  | expr (pos : Nat)
  | pipe (pos : Nat)
  | pipeLoop (left : Node) (pos : Nat)
  | eq (pos : Nat)
  | eqLoop (left : Node) (pos : Nat)
  | comp (pos : Nat)
  | compLoop (left : Node) (pos : Nat)
  | term (pos : Nat)
  | termLoop (left : Node) (pos : Nat)
  | factor (pos : Nat)
  | factorLoop (left : Node) (pos : Nat)
  | unary (pos : Nat)
  | callC (pos : Nat)
  | callLoop (e : Node) (pos : Nat)
  | callArgs (pos : Nat)
  | primary (pos : Nat)
  | listElems (pos : Nat)
  | lamParams (pos : Nat)

/-- Parser answers: a node, an optional node (a blank statement parses to
None), a node list, or a parameter-name list, each with the new position. -/
inductive PAns where
  | one (n : Node) (pos : Nat)
  | opt (n : Option Node) (pos : Nat)
  | many (ns : List Node) (pos : Nat)
  | names (xs : List String) (pos : Nat)

/-- Sequencing helpers for the parser: propagate errors and fuel
exhaustion, continue on the expected answer shape (a shape mismatch
cannot arise and is mapped to fuel exhaustion). -/
def pbindOne (r : Option (Except PErr PAns)) (k : Node → Nat → Option (Except PErr PAns)) :
    Option (Except PErr PAns) :=
  match r with
  | some (Except.ok (PAns.one n pos)) => k n pos
  | some (Except.ok _) => Option.none
  | some (Except.error e) => some (Except.error e)
  | Option.none => Option.none

def pbindOpt (r : Option (Except PErr PAns)) (k : Option Node → Nat → Option (Except PErr PAns)) :
    Option (Except PErr PAns) :=
  match r with
  | some (Except.ok (PAns.opt n pos)) => k n pos
  | some (Except.ok _) => Option.none
  | some (Except.error e) => some (Except.error e)
  | Option.none => Option.none

def pbindMany (r : Option (Except PErr PAns)) (k : List Node → Nat → Option (Except PErr PAns)) :
    Option (Except PErr PAns) :=
  match r with
  | some (Except.ok (PAns.many ns pos)) => k ns pos
  | some (Except.ok _) => Option.none
  | some (Except.error e) => some (Except.error e)
  | Option.none => Option.none

def pbindNames (r : Option (Except PErr PAns)) (k : List String → Nat → Option (Except PErr PAns)) :
    Option (Except PErr PAns) :=
  match r with
  | some (Except.ok (PAns.names xs pos)) => k xs pos
  | some (Except.ok _) => Option.none
  | some (Except.error e) => some (Except.error e)
  | Option.none => Option.none

/-- Lift Parser.consume into the step result. -/
def pconsume (ts : List Token) (pos : Nat) (t : TokenType) (msg : String)
    (k : Token → Nat → Option (Except PErr PAns)) : Option (Except PErr PAns) :=
  match consumeTok ts pos t msg with
  | Except.error e => some (Except.error e)
  | Except.ok (tok, pos1) => k tok pos1

/-- The parser. Each case is a direct transcription of the corresponding
method of parser.py. -/
def pstep (ts : List Token) : Nat → PReq → Option (Except PErr PAns)
  | 0, _ => Option.none
  | Nat.succ f, PReq.moduleBody pos =>
    -- Parser.parse: declarations until EOF; None results are dropped
    if isAtEnd ts pos then some (Except.ok (PAns.many [] pos))
    else
      pbindOpt (pstep ts f (PReq.decl pos)) (fun stmt pos1 =>
        pbindMany (pstep ts f (PReq.moduleBody pos1)) (fun rest pos2 =>
          match stmt with
          | some n => some (Except.ok (PAns.many (n :: rest) pos2))
          | Option.none => some (Except.ok (PAns.many rest pos2))))
  | Nat.succ f, PReq.decl pos =>
    -- Parser.declaration: def, async def, a spawn statement (matched then
    -- backtracked), or a general statement
    match matchTok ts pos [TokenType.DEF] with
    | some (_, pos1) =>
      pbindOne (pstep ts f (PReq.funcDef false pos1)) (fun n pos2 =>
        some (Except.ok (PAns.opt (some n) pos2)))
    | Option.none =>
      match matchTok ts pos [TokenType.ASYNC] with
      | some (_, pos1) =>
        match matchTok ts pos1 [TokenType.DEF] with
        | some (_, pos2) =>
          pbindOne (pstep ts f (PReq.funcDef true pos2)) (fun n pos3 =>
            some (Except.ok (PAns.opt (some n) pos3)))
        | Option.none =>
          some (Except.error { message := "Expected def after async", tok := peekTok ts pos1 })
      | Option.none =>
        match matchTok ts pos [TokenType.SPAWN] with
        | some (_, _) =>
          -- backtrack then fall through to statement
          pstep ts f (PReq.stmtS pos)
        | Option.none => pstep ts f (PReq.stmtS pos)
  | Nat.succ f, PReq.funcDef isAsync pos =>
    pconsume ts pos TokenType.IDENTIFIER "Expected function name" (fun nameTok pos1 =>
      pconsume ts pos1 TokenType.LPAREN "Expected ( after function name" (fun _ pos2 =>
        (fun (cont : List String → Nat → Option (Except PErr PAns)) =>
          if checkTok ts pos2 TokenType.RPAREN then cont [] pos2
          else pbindNames (pstep ts f (PReq.fdParams pos2)) cont)
        (fun args pos3 =>
          pconsume ts pos3 TokenType.RPAREN "Expected ) after parameters" (fun _ pos4 =>
            pconsume ts pos4 TokenType.COLON "Expected : before function body" (fun _ pos5 =>
              pconsume ts pos5 TokenType.NEWLINE "Expected newline after function header" (fun _ pos6 =>
                pbindMany (pstep ts f (PReq.blockB pos6)) (fun body pos7 =>
                  some (Except.ok (PAns.one
                    (Node.functionDef (tvalToString nameTok.value) args body isAsync) pos7)))))))))
  | Nat.succ f, PReq.fdParams pos =>
    pconsume ts pos TokenType.IDENTIFIER "Expected parameter name" (fun tok pos1 =>
      match matchTok ts pos1 [TokenType.COMMA] with
      | some (_, pos2) =>
        pbindNames (pstep ts f (PReq.fdParams pos2)) (fun rest pos3 =>
          some (Except.ok (PAns.names (tvalToString tok.value :: rest) pos3)))
      | Option.none => some (Except.ok (PAns.names [tvalToString tok.value] pos1)))
  | Nat.succ f, PReq.blockB pos =>
    pconsume ts pos TokenType.INDENT "Expected indentation" (fun _ pos1 =>
      pbindMany (pstep ts f (PReq.blockItems pos1)) (fun stmts pos2 =>
        pconsume ts pos2 TokenType.DEDENT "Expected dedent" (fun _ pos3 =>
          some (Except.ok (PAns.many stmts pos3)))))
  | Nat.succ f, PReq.blockItems pos =>
    if checkTok ts pos TokenType.DEDENT ∨ isAtEnd ts pos then
      some (Except.ok (PAns.many [] pos))
    else
      pbindOpt (pstep ts f (PReq.decl pos)) (fun stmt pos1 =>
        pbindMany (pstep ts f (PReq.blockItems pos1)) (fun rest pos2 =>
          match stmt with
          | some n => some (Except.ok (PAns.many (n :: rest) pos2))
          | Option.none => some (Except.ok (PAns.many rest pos2))))
  | Nat.succ f, PReq.stmtS pos =>
    match matchTok ts pos [TokenType.RETURN] with
    | some (_, pos1) => pstep ts f (PReq.retStmt pos1)
    | Option.none =>
    match matchTok ts pos [TokenType.IF] with
    | some (_, pos1) => pstep ts f (PReq.ifS pos1)
    | Option.none =>
    match matchTok ts pos [TokenType.WHILE] with
    | some (_, pos1) => pstep ts f (PReq.whileS pos1)
    | Option.none =>
    match matchTok ts pos [TokenType.NEWLINE] with
    | some (_, pos1) => some (Except.ok (PAns.opt Option.none pos1))
    | Option.none =>
      -- assignment or expression statement
      pbindOne (pstep ts f (PReq.expr pos)) (fun e pos1 =>
        match matchTok ts pos1 [TokenType.EQ] with
        | some (_, pos2) =>
          match e with
          | Node.name id =>
            pbindOne (pstep ts f (PReq.expr pos2)) (fun value pos3 =>
              pconsume ts pos3 TokenType.NEWLINE "Expected newline after assignment" (fun _ pos4 =>
                some (Except.ok (PAns.opt (some (Node.assign id value)) pos4))))
          | _ =>
            some (Except.error { message := "Invalid assignment target", tok := peekTok ts pos2 })
        | Option.none =>
          pconsume ts pos1 TokenType.NEWLINE "Expected newline after expression" (fun _ pos2 =>
            some (Except.ok (PAns.opt (some e) pos2))))
  | Nat.succ f, PReq.retStmt pos =>
    if checkTok ts pos TokenType.NEWLINE then
      pconsume ts pos TokenType.NEWLINE "Expected newline after return" (fun _ pos1 =>
        some (Except.ok (PAns.opt (some (Node.ret Option.none)) pos1)))
    else
      pbindOne (pstep ts f (PReq.expr pos)) (fun value pos1 =>
        pconsume ts pos1 TokenType.NEWLINE "Expected newline after return" (fun _ pos2 =>
          some (Except.ok (PAns.opt (some (Node.ret (some value))) pos2))))
  | Nat.succ f, PReq.ifS pos =>
    pbindOne (pstep ts f (PReq.expr pos)) (fun test pos1 =>
      pconsume ts pos1 TokenType.COLON "Expected : after if condition" (fun _ pos2 =>
        pconsume ts pos2 TokenType.NEWLINE "Expected newline after if header" (fun _ pos3 =>
          pbindMany (pstep ts f (PReq.blockB pos3)) (fun body pos4 =>
            match matchTok ts pos4 [TokenType.ELSE] with
            | some (_, pos5) =>
              pconsume ts pos5 TokenType.COLON "Expected : after else" (fun _ pos6 =>
                pconsume ts pos6 TokenType.NEWLINE "Expected newline after else header" (fun _ pos7 =>
                  pbindMany (pstep ts f (PReq.blockB pos7)) (fun orelse pos8 =>
                    some (Except.ok (PAns.opt (some (Node.ifStmt test body orelse)) pos8)))))
            | Option.none =>
              some (Except.ok (PAns.opt (some (Node.ifStmt test body [])) pos4))))))
  | Nat.succ f, PReq.whileS pos =>
    pbindOne (pstep ts f (PReq.expr pos)) (fun test pos1 =>
      pconsume ts pos1 TokenType.COLON "Expected : after while condition" (fun _ pos2 =>
        pconsume ts pos2 TokenType.NEWLINE "Expected newline after while header" (fun _ pos3 =>
          pbindMany (pstep ts f (PReq.blockB pos3)) (fun body pos4 =>
            some (Except.ok (PAns.opt (some (Node.whileStmt test body)) pos4))))))
  | Nat.succ f, PReq.expr pos => pstep ts f (PReq.pipe pos)
  | Nat.succ f, PReq.pipe pos =>
    pbindOne (pstep ts f (PReq.eq pos)) (fun e pos1 => pstep ts f (PReq.pipeLoop e pos1))
  | Nat.succ f, PReq.pipeLoop left pos =>
    match matchTok ts pos [TokenType.PIPE] with
    | some (_, pos1) =>
      pbindOne (pstep ts f (PReq.eq pos1)) (fun right pos2 =>
        pstep ts f (PReq.pipeLoop (Node.pipeline left right) pos2))
    | Option.none => some (Except.ok (PAns.one left pos))
  | Nat.succ f, PReq.eq pos =>
    pbindOne (pstep ts f (PReq.comp pos)) (fun e pos1 => pstep ts f (PReq.eqLoop e pos1))
  | Nat.succ f, PReq.eqLoop left pos =>
    match matchTok ts pos [TokenType.EQEQ, TokenType.NEQ] with
    | some (op, pos1) =>
      pbindOne (pstep ts f (PReq.comp pos1)) (fun right pos2 =>
        pstep ts f (PReq.eqLoop (Node.binOp left op.pyStr right) pos2))
    | Option.none => some (Except.ok (PAns.one left pos))
  | Nat.succ f, PReq.comp pos =>
    pbindOne (pstep ts f (PReq.term pos)) (fun e pos1 => pstep ts f (PReq.compLoop e pos1))
  | Nat.succ f, PReq.compLoop left pos =>
    match matchTok ts pos [TokenType.GT, TokenType.GTE, TokenType.LT, TokenType.LTE] with
    | some (op, pos1) =>
      pbindOne (pstep ts f (PReq.term pos1)) (fun right pos2 =>
        pstep ts f (PReq.compLoop (Node.binOp left op.pyStr right) pos2))
    | Option.none => some (Except.ok (PAns.one left pos))
  | Nat.succ f, PReq.term pos =>
    pbindOne (pstep ts f (PReq.factor pos)) (fun e pos1 => pstep ts f (PReq.termLoop e pos1))
  | Nat.succ f, PReq.termLoop left pos =>
    match matchTok ts pos [TokenType.MINUS, TokenType.PLUS] with
    | some (op, pos1) =>
      pbindOne (pstep ts f (PReq.factor pos1)) (fun right pos2 =>
        pstep ts f (PReq.termLoop (Node.binOp left op.pyStr right) pos2))
    | Option.none => some (Except.ok (PAns.one left pos))
  | Nat.succ f, PReq.factor pos =>
    pbindOne (pstep ts f (PReq.unary pos)) (fun e pos1 => pstep ts f (PReq.factorLoop e pos1))
  | Nat.succ f, PReq.factorLoop left pos =>
    match matchTok ts pos [TokenType.SLASH, TokenType.STAR] with
    | some (op, pos1) =>
      pbindOne (pstep ts f (PReq.unary pos1)) (fun right pos2 =>
        pstep ts f (PReq.factorLoop (Node.binOp left op.pyStr right) pos2))
    | Option.none => some (Except.ok (PAns.one left pos))
  | Nat.succ f, PReq.unary pos =>
    -- spawn wraps whatever the call production parses next; there is no
    -- check that it is in fact a call node
    match matchTok ts pos [TokenType.SPAWN] with
    | some (_, pos1) =>
      pbindOne (pstep ts f (PReq.callC pos1)) (fun e pos2 =>
        some (Except.ok (PAns.one (Node.spawn e) pos2)))
    | Option.none =>
    match matchTok ts pos [TokenType.AWAIT] with
    | some (_, pos1) =>
      pbindOne (pstep ts f (PReq.unary pos1)) (fun e pos2 =>
        some (Except.ok (PAns.one (Node.awaitE e) pos2)))
    | Option.none =>
    match matchTok ts pos [TokenType.MINUS] with
    | some (_, pos1) =>
      pbindOne (pstep ts f (PReq.unary pos1)) (fun e pos2 =>
        some (Except.ok (PAns.one (Node.binOp (Node.lit (Const.int 0)) "-" e) pos2)))
    | Option.none => pstep ts f (PReq.callC pos)
  | Nat.succ f, PReq.callC pos =>
    pbindOne (pstep ts f (PReq.primary pos)) (fun e pos1 => pstep ts f (PReq.callLoop e pos1))
  | Nat.succ f, PReq.callLoop e pos =>
    match matchTok ts pos [TokenType.LPAREN] with
    | some (_, pos1) =>
      (fun (cont : List Node → Nat → Option (Except PErr PAns)) =>
        if checkTok ts pos1 TokenType.RPAREN then cont [] pos1
        else pbindMany (pstep ts f (PReq.callArgs pos1)) cont)
      (fun args pos2 =>
        pconsume ts pos2 TokenType.RPAREN "Expected ) after arguments" (fun _ pos3 =>
          pstep ts f (PReq.callLoop (Node.call e args) pos3)))
    | Option.none => some (Except.ok (PAns.one e pos))
  | Nat.succ f, PReq.callArgs pos =>
    pbindOne (pstep ts f (PReq.expr pos)) (fun a pos1 =>
      match matchTok ts pos1 [TokenType.COMMA] with
      | some (_, pos2) =>
        pbindMany (pstep ts f (PReq.callArgs pos2)) (fun rest pos3 =>
          some (Except.ok (PAns.many (a :: rest) pos3)))
      | Option.none => some (Except.ok (PAns.many [a] pos1)))
  | Nat.succ f, PReq.primary pos =>
    match matchTok ts pos [TokenType.FALSE] with
    | some (_, pos1) => some (Except.ok (PAns.one (Node.lit (Const.bool false)) pos1))
    | Option.none =>
    match matchTok ts pos [TokenType.TRUE] with
    | some (_, pos1) => some (Except.ok (PAns.one (Node.lit (Const.bool true)) pos1))
    | Option.none =>
    match matchTok ts pos [TokenType.NONE] with
    | some (_, pos1) => some (Except.ok (PAns.one (Node.lit Const.none) pos1))
    | Option.none =>
    match matchTok ts pos [TokenType.NUMBER] with
    | some (_, pos1) =>
      some (Except.ok (PAns.one (Node.lit (tvalToConst (peekTok ts pos).value)) pos1))
    | Option.none =>
    match matchTok ts pos [TokenType.STRING] with
    | some (_, pos1) =>
      some (Except.ok (PAns.one (Node.lit (tvalToConst (peekTok ts pos).value)) pos1))
    | Option.none =>
    match matchTok ts pos [TokenType.IDENTIFIER] with
    | some (_, pos1) =>
      some (Except.ok (PAns.one (Node.name (tvalToString (peekTok ts pos).value)) pos1))
    | Option.none =>
    match matchTok ts pos [TokenType.LPAREN] with
    | some (_, pos1) =>
      pbindOne (pstep ts f (PReq.expr pos1)) (fun e pos2 =>
        pconsume ts pos2 TokenType.RPAREN "Expected ) after expression" (fun _ pos3 =>
          some (Except.ok (PAns.one e pos3))))
    | Option.none =>
    match matchTok ts pos [TokenType.LBRACKET] with
    | some (_, pos1) =>
      (fun (cont : List Node → Nat → Option (Except PErr PAns)) =>
        if checkTok ts pos1 TokenType.RBRACKET then cont [] pos1
        else pbindMany (pstep ts f (PReq.listElems pos1)) cont)
      (fun elems pos2 =>
        pconsume ts pos2 TokenType.RBRACKET "Expected ] after list elements" (fun _ pos3 =>
          some (Except.ok (PAns.one (Node.listLit elems) pos3))))
    | Option.none =>
    match matchTok ts pos [TokenType.LAMBDA] with
    | some (_, pos1) =>
      (fun (cont : List String → Nat → Option (Except PErr PAns)) =>
        if checkTok ts pos1 TokenType.COLON then cont [] pos1
        else pbindNames (pstep ts f (PReq.lamParams pos1)) cont)
      (fun args pos2 =>
        pconsume ts pos2 TokenType.COLON "Expected : after lambda args" (fun _ pos3 =>
          pbindOne (pstep ts f (PReq.expr pos3)) (fun body pos4 =>
            some (Except.ok (PAns.one (Node.lam args body) pos4)))))
    | Option.none =>
      some (Except.error { message := "Expect expression", tok := peekTok ts pos })
  | Nat.succ f, PReq.listElems pos =>
    pbindOne (pstep ts f (PReq.expr pos)) (fun e pos1 =>
      match matchTok ts pos1 [TokenType.COMMA] with
      | some (_, pos2) =>
        pbindMany (pstep ts f (PReq.listElems pos2)) (fun rest pos3 =>
          some (Except.ok (PAns.many (e :: rest) pos3)))
      | Option.none => some (Except.ok (PAns.many [e] pos1)))
  | Nat.succ f, PReq.lamParams pos =>
    pconsume ts pos TokenType.IDENTIFIER "Expected parameter name" (fun tok pos1 =>
      match matchTok ts pos1 [TokenType.COMMA] with
      | some (_, pos2) =>
        pbindNames (pstep ts f (PReq.lamParams pos2)) (fun rest pos3 =>
          some (Except.ok (PAns.names (tvalToString tok.value :: rest) pos3)))
      | Option.none => some (Except.ok (PAns.names [tvalToString tok.value] pos1)))

/-- Parser.parse: the module body, or a syntax error, or fuel exhaustion. -/
def parseModule (fuel : Nat) (ts : List Token) : Option (Except PErr (List Node)) :=
  match pstep ts fuel (PReq.moduleBody 0) with
  | some (Except.ok (PAns.many ns _)) => some (Except.ok ns)
  | some (Except.ok _) => Option.none
  | some (Except.error e) => some (Except.error e)
  | Option.none => Option.none

/-- Parser.expression run at a given position. -/
def parseExpression (fuel : Nat) (ts : List Token) (pos : Nat) : Option (Except PErr PAns) :=
  pstep ts fuel (PReq.expr pos)

/-- Parser.unary run at a given position. -/
def parseUnary (fuel : Nat) (ts : List Token) (pos : Nat) : Option (Except PErr PAns) :=
  pstep ts fuel (PReq.unary pos)

/-- Parser.call run at a given position. -/
def parseCall (fuel : Nat) (ts : List Token) (pos : Nat) : Option (Except PErr PAns) :=
  pstep ts fuel (PReq.callC pos)

/-! Lexer (lexer.py) -/

/-- LexerError: message plus position. -/
structure LexErr where
  message : String
  line : Nat
  col : Nat
  deriving DecidableEq, Repr

/-- Lexer state apart from the remaining input, which is threaded
separately so that every scanning loop is structurally recursive on it.
The indentation stack keeps its top at the head (the source keeps the top
at the end of a Python list); the bottom sentinel 0 sits at the tail. -/
structure LState where
  line : Nat
  col : Nat
  tokens : List Token
  stack : List Nat

/-- Lexer.advance for one consumed character: a newline resets the column
and advances the line. -/
def advanceChar (c : Char) (st : LState) : LState :=
  if c = '\n' then { st with line := st.line + 1, col := 1 }
  else { st with col := st.col + 1 }

/-- Lexer.skip_comment: consume up to (not including) the next newline. -/
def skipComment : List Char → LState → List Char × LState
  | [], st => ([], st)
  | c :: rest, st =>
    if c = '\n' then (c :: rest, st) else skipComment rest (advanceChar c st)

/-- The whitespace run consumed at the start of a logical line inside
handle_newline (whitespace other than a newline). -/
def skipIndentSpaces : List Char → LState → List Char × LState
  | [], st => ([], st)
  | c :: rest, st =>
    if c.isWhitespace ∧ c ≠ '\n' then skipIndentSpaces rest (advanceChar c st)
    else (c :: rest, st)

/-- The dedent-popping loop of handle_newline, fused with the mismatch
check that follows it in the source: pop and emit one DEDENT while the new
level is below the stack top; when the loop stops, the level must equal
the top exactly, else the lexer raises Inconsistent indentation. An empty
stack would be a host IndexError in the source; it is unreachable because
the bottom sentinel 0 is never popped. -/
def popDedents (lvl line : Nat) : List Nat → List Token → Except LexErr (List Nat × List Token)
  | [], _ => Except.error { message := "list index out of range", line := line, col := 1 }
  | top :: rest, toks =>
    if lvl < top then
      popDedents lvl line rest (toks ++ [{ type := TokenType.DEDENT, line := line, column := 1 }])
    else if lvl ≠ top then
      Except.error { message := "Inconsistent indentation", line := line, col := 1 }
    else Except.ok (top :: rest, toks)

/-- The structural-token part of handle_newline: emit the NEWLINE for the
line just completed, then compare the measured indentation level with the
stack top, pushing an INDENT or popping DEDENTs. -/
def processIndent (lvl line : Nat) (stack : List Nat) (tokens : List Token) :
    Except LexErr (List Nat × List Token) :=
  let tokens := tokens ++ [{ type := TokenType.NEWLINE, line := line - 1, column := 1 }]
  match stack with
  | [] => Except.error { message := "list index out of range", line := line, col := 1 }
  | top :: rest =>
    if lvl > top then
      Except.ok (lvl :: top :: rest,
        tokens ++ [{ type := TokenType.INDENT, line := line, column := 1 }])
    else if lvl < top then popDedents lvl line (top :: rest) tokens
    else Except.ok (top :: rest, tokens)

/-- Lexer.handle_newline: consume the newline, skip the indentation run,
ignore blank and comment-only lines and a trailing end of input, otherwise
measure the indentation (the column minus one) and process it. -/
def handleNewline (src : List Char) (st : LState) : Except LexErr (List Char × LState) :=
  match src with
  | [] => Except.ok ([], st)
  | c :: rest =>
    let st1 := advanceChar c st
    let p := skipIndentSpaces rest st1
    match p.1.head? with
    | Option.none => Except.ok (p.1, p.2)
    | some c1 =>
      if c1 = '\n' ∨ c1 = '#' then Except.ok (p.1, p.2)
      else
        match processIndent (p.2.col - 1) p.2.line p.2.stack p.2.tokens with
        | Except.error e => Except.error e
        | Except.ok (stack1, tokens1) =>
          Except.ok (p.1, { p.2 with stack := stack1, tokens := tokens1 })

/-- The keyword dict of the Lexer constructor, as an association list. -/
def keywordList : List (String × TokenType) :=
  [ ("def", TokenType.DEF), ("async", TokenType.ASYNC), ("return", TokenType.RETURN),
    ("if", TokenType.IF), ("else", TokenType.ELSE), ("while", TokenType.WHILE),
    ("for", TokenType.FOR), ("in", TokenType.IN), ("spawn", TokenType.SPAWN),
    ("await", TokenType.AWAIT), ("True", TokenType.TRUE), ("False", TokenType.FALSE),
    ("None", TokenType.NONE), ("lambda", TokenType.LAMBDA) ]

/-- Dict lookup: self.keywords.get(value). -/
def keywordTable (s : String) : Option TokenType :=
  (keywordList.find? (fun p => p.1 == s)).map (fun p => p.2)

/-- The scanning loop of read_identifier: alphanumeric characters and
underscores. -/
def readIdent : List Char → LState → String → List Char × LState × String
  | [], st, acc => ([], st, acc)
  | c :: rest, st, acc =>
    if c.isAlphanum ∨ c = '_' then readIdent rest (advanceChar c st) (acc.push c)
    else (c :: rest, st, acc)

/-- The scanning loop of read_number: digits, with a single embedded dot
promoting the literal to a float and a second dot terminating it. -/
def readNum : List Char → LState → String → Bool → List Char × LState × String × Bool
  | [], st, acc, isF => ([], st, acc, isF)
  | c :: rest, st, acc, isF =>
    if c.isDigit then readNum rest (advanceChar c st) (acc.push c) isF
    else if c = '.' then
      if isF then (c :: rest, st, acc, isF)
      else readNum rest (advanceChar c st) (acc.push c) true
    else (c :: rest, st, acc, isF)

def digitsToNat (acc : Nat) : List Char → Nat
  | [] => acc
  | c :: rest => digitsToNat (acc * 10 + (c.toNat - 48)) rest

/-- The host conversion of the scanned number text: int(value), or
float(value) when a dot was seen (floats as exact rationals). -/
def parseNumValue (s : String) (isF : Bool) : TValue :=
  if isF then
    let intp := s.data.takeWhile (fun c => c ≠ '.')
    let frac := (s.data.dropWhile (fun c => c ≠ '.')).drop 1
    TValue.float ((digitsToNat 0 intp : Rat) + (digitsToNat 0 frac : Rat) / ((10 : Rat) ^ frac.length))
  else TValue.int (digitsToNat 0 s.data)

/-- The scanning loop of read_string after the opening quote: characters
up to the matching quote; a backslash consumes and skips the following
character without transforming it; running out of input (also right after
a backslash) raises Unterminated string at the current position. -/
def readStrBody : List Char → LState → Char → String → Except LexErr (List Char × LState × String)
  | [], st, _, _ =>
    Except.error { message := "Unterminated string", line := st.line, col := st.col }
  | c :: rest, st, q, acc =>
    if c = q then Except.ok (rest, advanceChar c st, acc)
    else if c = '\\' then
      match rest with
      | [] =>
        let st1 := advanceChar c st
        Except.error { message := "Unterminated string", line := st1.line, col := st1.col }
      | c2 :: rest2 => readStrBody rest2 (advanceChar c2 (advanceChar c st)) q (acc.push c2)
    else readStrBody rest (advanceChar c st) q (acc.push c)

/-- The two-character operators of handle_symbol, matched greedily, in
source order. -/
def twoCharList : List ((Char × Char) × TokenType) :=
  [ (('|', '>'), TokenType.PIPE), (('=', '='), TokenType.EQEQ),
    (('!', '='), TokenType.NEQ), (('<', '='), TokenType.LTE),
    (('>', '='), TokenType.GTE), (('-', '>'), TokenType.ARROW) ]

/-- The single-character operators and punctuation of handle_symbol, in
source order. -/
def oneCharList : List (Char × TokenType) :=
  [ ('+', TokenType.PLUS), ('-', TokenType.MINUS), ('*', TokenType.STAR),
    ('/', TokenType.SLASH), ('=', TokenType.EQ), ('<', TokenType.LT),
    ('>', TokenType.GT), ('(', TokenType.LPAREN), (')', TokenType.RPAREN),
    ('\x7b', TokenType.LBRACE), ('\x7d', TokenType.RBRACE),
    ('[', TokenType.LBRACKET), (']', TokenType.RBRACKET),
    (',', TokenType.COMMA), (':', TokenType.COLON), ('.', TokenType.DOT) ]

/-- The decision of handle_symbol: the token kind for a first character
given the following one, plus whether that following character is
consumed as part of a greedy two-character operator; None is the
unexpected-character error. -/
def symbolToken (c : Char) (next : Option Char) : Option (TokenType × Bool) :=
  match next with
  | some c2 =>
    match twoCharList.find? (fun p => p.1.1 == c && p.1.2 == c2) with
    | some p => some (p.2, true)
    | Option.none => (oneCharList.find? (fun p => p.1 == c)).map (fun p => (p.2, false))
  | Option.none => (oneCharList.find? (fun p => p.1 == c)).map (fun p => (p.2, false))

/-- Append the symbol token: its value is the first character, as in the
source. -/
def emitTok (st : LState) (tt : TokenType) (c : Char) (startCol : Nat) : LState :=
  { st with tokens := st.tokens ++
    [{ type := tt, value := TValue.str (String.singleton c),
       line := st.line, column := startCol }] }

/-- Lexer.handle_symbol: greedy two-character operators, then
single-character operators and punctuation (the table above); anything
else raises Unexpected character. -/
def handleSymbol (src : List Char) (st : LState) : Except LexErr (List Char × LState) :=
  match src with
  | [] => Except.ok ([], st)
  | c :: rest =>
    let startCol := st.col
    let st1 := advanceChar c st
    match symbolToken c rest.head? with
    | some (tt, true) =>
      match rest with
      | c2 :: rest2 => Except.ok (rest2, emitTok (advanceChar c2 st1) tt c startCol)
      | [] =>
        Except.error { message := "Unexpected character: " ++ String.singleton c,
                       line := st1.line, col := startCol }
    | some (tt, false) => Except.ok (rest, emitTok st1 tt c startCol)
    | Option.none =>
      Except.error { message := "Unexpected character: " ++ String.singleton c,
                     line := st1.line, col := startCol }

/-- The main tokenize loop (while self.pos < len(self.source)). Every
iteration consumes at least one character, so fuel equal to the input
length plus one suffices; running out of fuel yields Option.none. -/
def lexLoop : Nat → List Char → LState → Option (Except LexErr LState)
  | 0, _, _ => Option.none
  | Nat.succ f, src, st =>
    match src with
    | [] => some (Except.ok st)
    | c :: rest =>
      if c = '#' then
        let p := skipComment (c :: rest) st
        lexLoop f p.1 p.2
      else if c = '\n' then
        match handleNewline (c :: rest) st with
        | Except.error e => some (Except.error e)
        | Except.ok (src1, st1) => lexLoop f src1 st1
      else if c.isWhitespace then lexLoop f rest (advanceChar c st)
      else if c.isAlpha ∨ c = '_' then
        let startCol := st.col
        let p := readIdent (c :: rest) st ""
        let tt := (keywordTable p.2.2).getD TokenType.IDENTIFIER
        lexLoop f p.1 { p.2.1 with tokens := p.2.1.tokens ++
          [{ type := tt, value := TValue.str p.2.2, line := p.2.1.line, column := startCol }] }
      else if c.isDigit then
        let startCol := st.col
        let p := readNum (c :: rest) st "" false
        lexLoop f p.1 { p.2.1 with tokens := p.2.1.tokens ++
          [{ type := TokenType.NUMBER, value := parseNumValue p.2.2.1 p.2.2.2,
             line := p.2.1.line, column := startCol }] }
      else if c = '"' ∨ c = '\'' then
        let startCol := st.col
        match readStrBody rest (advanceChar c st) c "" with
        | Except.error e => some (Except.error e)
        | Except.ok (src1, st1, acc) =>
          lexLoop f src1 { st1 with tokens := st1.tokens ++
            [{ type := TokenType.STRING, value := TValue.str acc,
               line := st1.line, column := startCol }] }
      else
        match handleSymbol (c :: rest) st with
        | Except.error e => some (Except.error e)
        | Except.ok (src1, st1) => lexLoop f src1 st1

/-- The closing pop loop of handle_eof: one DEDENT per still-open
indentation level (while the stack is longer than the bottom sentinel). -/
def popRemaining : List Nat → List Token → Nat → List Nat × List Token
  | [], toks, _ => ([], toks)
  | [b], toks, _ => ([b], toks)
  | _ :: rest, toks, line =>
    popRemaining rest (toks ++ [{ type := TokenType.DEDENT, line := line, column := 1 }]) line

/-- Lexer.handle_eof: synthesize a trailing NEWLINE unless the last token
is already a NEWLINE or DEDENT (or there are no tokens), close the open
indentation levels, then append EOF. -/
def handleEof (st : LState) : LState :=
  let st1 : LState :=
    match st.tokens.getLast? with
    | some tok =>
      if tok.type ≠ TokenType.NEWLINE ∧ tok.type ≠ TokenType.DEDENT then
        { st with tokens := st.tokens ++
          [{ type := TokenType.NEWLINE, line := st.line, column := 1 }] }
      else st
    | Option.none => st
  let p := popRemaining st1.stack st1.tokens st1.line
  { st1 with stack := p.1, tokens := p.2 ++
    [{ type := TokenType.EOF, line := st1.line, column := 1 }] }

/-- Lexer.tokenize on a character list, starting at line 1, column 1 with
the indentation stack holding the single level 0. -/
def tokenize (src : List Char) : Option (Except LexErr (List Token)) :=
  match lexLoop (src.length + 1) src { line := 1, col := 1, tokens := [], stack := [0] } with
  | Option.none => Option.none
  | some (Except.error e) => some (Except.error e)
  | some (Except.ok st) => some (Except.ok (handleEof st).tokens)

/-- The dispatch reached by both pipeline right-hand shapes. -/
def pipeInvoke (fuel : Nat) (ms : MState) (callee : Value) (args : List Value) :
    Option (MState × Res) :=
  step fuel (Req.pipev ms callee args)

/-- Result component of an interpreter outcome. -/
def resOf (r : Option (MState × Res)) : Option Res :=
  r.map (fun p => p.2)

/-- The front half of the pipeline: tokenize then parse, successes only. -/
def lexParse (fuel : Nat) (src : String) : Option (List Node) :=
  match tokenize src.data with
  | some (Except.ok ts) =>
    match parseModule fuel ts with
    | some (Except.ok ns) => some ns
    | _ => Option.none
  | _ => Option.none

namespace Examples

/-- Source text of the fib module from the design document. -/
def fibSrc : String :=
  "def fib(n):\n    if n < 2:\n        return n\n    return fib(n-1) + fib(n-2)\nresult = fib(10)\n"

/-- Body of fib as the parser builds it: an if statement guarding the base
case, then the recursive return. -/
def fibBody : List Node :=
  [ Node.ifStmt (Node.binOp (Node.name "n") "TokenType.LT" (Node.lit (Const.int 2)))
      [Node.ret (some (Node.name "n"))] [],
    Node.ret (some (Node.binOp
      (Node.call (Node.name "fib")
        [Node.binOp (Node.name "n") "TokenType.MINUS" (Node.lit (Const.int 1))])
      "TokenType.PLUS"
      (Node.call (Node.name "fib")
        [Node.binOp (Node.name "n") "TokenType.MINUS" (Node.lit (Const.int 2))])))]

/-- The module: def fib(n) followed by result = fib(10). -/
def fibProgram : List Node :=
  [ Node.functionDef "fib" ["n"] fibBody false,
    Node.assign "result" (Node.call (Node.name "fib") [Node.lit (Const.int 10)]) ]

/-- Source text of the pipe module from the design document. -/
def doubleSrc : String :=
  "def double(x):\n    return x * 2\nresult = 10 |> double()\n"

/-- The module: def double(x) followed by result = 10 |> double(). -/
def doubleProgram : List Node :=
  [ Node.functionDef "double" ["x"]
      [Node.ret (some (Node.binOp (Node.name "x") "TokenType.STAR" (Node.lit (Const.int 2))))]
      false,
    Node.assign "result"
      (Node.pipeline (Node.lit (Const.int 10)) (Node.call (Node.name "double") [])) ]

/-- A module where an inner function returns inside a call made by an
outer function: inner returns 1, outer calls inner for effect and then
returns 2. -/
def innerOuterProgram : List Node :=
  [ Node.functionDef "inner" [] [Node.ret (some (Node.lit (Const.int 1)))] false,
    Node.functionDef "outer" []
      [ Node.call (Node.name "inner") [],
        Node.ret (some (Node.lit (Const.int 2))) ] false,
    Node.assign "result" (Node.call (Node.name "outer") []) ]

/-- A machine state whose global scope also binds one asynchronous
closure g with body return 42. -/
def asyncGlobals : MState :=
  let vs := initGlobals.values ++
    [("g", Value.closure true "g" [] [Node.ret (some (Node.lit (Const.int 42)))] 0)]
  { scopes := [{ values := vs, parent := Option.none }], tasks := [] }

/-- Source text of a small indented program. -/
def demoSrc : String := "def foo():\n    x = 1\n    if x:\n        return x\n"

/-- The token sequence the lexer produces for demoSrc. -/
def demoToks : List Token :=
  [ { type := TokenType.DEF, value := TValue.str "def", line := 1, column := 1 },
    { type := TokenType.IDENTIFIER, value := TValue.str "foo", line := 1, column := 5 },
    { type := TokenType.LPAREN, value := TValue.str "(", line := 1, column := 8 },
    { type := TokenType.RPAREN, value := TValue.str ")", line := 1, column := 9 },
    { type := TokenType.COLON, value := TValue.str ":", line := 1, column := 10 },
    { type := TokenType.NEWLINE, line := 1, column := 1 },
    { type := TokenType.INDENT, line := 2, column := 1 },
    { type := TokenType.IDENTIFIER, value := TValue.str "x", line := 2, column := 5 },
    { type := TokenType.EQ, value := TValue.str "=", line := 2, column := 7 },
    { type := TokenType.NUMBER, value := TValue.int 1, line := 2, column := 9 },
    { type := TokenType.NEWLINE, line := 2, column := 1 },
    { type := TokenType.IF, value := TValue.str "if", line := 3, column := 5 },
    { type := TokenType.IDENTIFIER, value := TValue.str "x", line := 3, column := 8 },
    { type := TokenType.COLON, value := TValue.str ":", line := 3, column := 9 },
    { type := TokenType.NEWLINE, line := 3, column := 1 },
    { type := TokenType.INDENT, line := 4, column := 1 },
    { type := TokenType.RETURN, value := TValue.str "return", line := 4, column := 9 },
    { type := TokenType.IDENTIFIER, value := TValue.str "x", line := 4, column := 16 },
    { type := TokenType.NEWLINE, line := 5, column := 1 },
    { type := TokenType.DEDENT, line := 5, column := 1 },
    { type := TokenType.DEDENT, line := 5, column := 1 },
    { type := TokenType.EOF, line := 5, column := 1 } ]

end Examples

/-- Shape discriminator: is this tree node a call node. -/
def isCallNode : Node → Bool
  | Node.call _ _ => true
  | _ => false

/-- Shape discriminator: is this tree node a bare name. -/
def isNameNode : Node → Bool
  | Node.name _ => true
  | _ => false


/-- The operator spellings recognised by apply_op. -/
def opTable : List String :=
  [ "TokenType.PLUS", "+", "TokenType.MINUS", "-", "TokenType.STAR", "*",
    "TokenType.SLASH", "/", "TokenType.GT", ">", "TokenType.LT", "<",
    "TokenType.EQEQ", "==" ]

/-- Token list for the expression statement 1 != 2. -/
def neqTokens : List Token :=
  [ { type := TokenType.NUMBER, value := TValue.int 1 },
    { type := TokenType.NEQ, value := TValue.str "!" },
    { type := TokenType.NUMBER, value := TValue.int 2 },
    { type := TokenType.NEWLINE }, { type := TokenType.EOF } ]

/-- Token list for the expression statement 1 <= 2. -/
def lteTokens : List Token :=
  [ { type := TokenType.NUMBER, value := TValue.int 1 },
    { type := TokenType.LTE, value := TValue.str "<" },
    { type := TokenType.NUMBER, value := TValue.int 2 },
    { type := TokenType.NEWLINE }, { type := TokenType.EOF } ]

/-- Token list for the expression statement 1 >= 2. -/
def gteTokens : List Token :=
  [ { type := TokenType.NUMBER, value := TValue.int 1 },
    { type := TokenType.GTE, value := TValue.str ">" },
    { type := TokenType.NUMBER, value := TValue.int 2 },
    { type := TokenType.NEWLINE }, { type := TokenType.EOF } ]


/-- Token list for the line: spawn x. -/
def spawnNameTokens : List Token :=
  [ { type := TokenType.SPAWN, value := TValue.str "spawn" },
    { type := TokenType.IDENTIFIER, value := TValue.str "x" },
    { type := TokenType.NEWLINE }, { type := TokenType.EOF } ]

/-- Token list for the line: spawn 5. -/
def spawnNumTokens : List Token :=
  [ { type := TokenType.SPAWN, value := TValue.str "spawn" },
    { type := TokenType.NUMBER, value := TValue.int 5 },
    { type := TokenType.NEWLINE }, { type := TokenType.EOF } ]


/-- Number of tokens of one kind. -/
def countTT (t : TokenType) (ts : List Token) : Nat :=
  List.countP (fun tok => tok.type == t) ts

/-- Every prefix of the token list has at least as many INDENT as DEDENT
tokens. -/
def Pref (ts : List Token) : Prop :=
  ∀ p, p <+: ts → countTT TokenType.DEDENT p ≤ countTT TokenType.INDENT p

/-- The lexer invariant: the INDENT and DEDENT counts emitted so far
differ by exactly the number of open indentation levels (the stack length
minus one), the bottom sentinel 0 is still at the bottom of the stack,
and every prefix of the emitted tokens is balance-nonnegative. -/
structure LInv (st : LState) : Prop where
  bal : countTT TokenType.INDENT st.tokens + 1
          = countTT TokenType.DEDENT st.tokens + st.stack.length
  bot : ∃ pre, st.stack = pre ++ [0]
  pref : Pref st.tokens


/-! Theorems -/

set_option maxRecDepth 200000 in
/-- C1: lexing and parsing the fib module source yields exactly the
modelled tree, and evaluating that module against a fresh global scope
terminates (with the given fuel) and leaves the global result bound to
the integer 55. -/
theorem fib_module_yields_55 :
    lexParse 1000 Examples.fibSrc = some Examples.fibProgram
    ∧ globalResult (interpret 1000 Examples.fibProgram) "result"
        = some (TopOutcome.normal, some (Value.int 55)) :=
  ⟨rfl, rfl⟩

/-- C10: on the synchronous evaluation path used for top-level statements,
Spawn and Await nodes fall through every handled node kind of
Interpreter.evaluate and yield None with the state untouched: no error,
no task, no suspension; in particular a top-level statement assigning an
awaited unknown name binds the target to None. -/
theorem sync_eval_spawn_await_returns_none :
    (∀ f ms env c, evalExpr (Nat.succ f) ms env (Node.spawn c) = some (ms, Res.ok Value.none))
    ∧ (∀ f ms env e, evalExpr (Nat.succ f) ms env (Node.awaitE e) = some (ms, Res.ok Value.none))
    ∧ globalResult (interpret 10 [Node.assign "x" (Node.awaitE (Node.name "t"))]) "x"
        = some (TopOutcome.normal, some Value.none) :=
  ⟨fun _ _ _ _ => rfl, fun _ _ _ _ => rfl, rfl⟩

/-- C4: executing an assignment evaluates the right-hand side and then
defines the name in the current scope: the resulting state updates only
the current scope record (every other scope, enclosing ones included, is
unchanged), the current scope gets the dict-update of its own bindings,
and the defined name afterwards resolves to the assigned value in that
scope regardless of previous bindings. -/
theorem assign_defines_current_scope :
    ∀ f ms ms1 env target e v,
      evalExpr f ms env e = some (ms1, Res.ok v) →
      execStmt (Nat.succ f) ms env (Node.assign target e)
          = some (ms1.defineIn env target v, Res.ok Value.none)
        ∧ (∀ j, j ≠ env → (ms1.defineIn env target v).scopes[j]? = ms1.scopes[j]?)
        ∧ (ms1.defineIn env target v).scopes[env]?
            = (ms1.scopes[env]?).map
                (fun sc => { sc with values := defineVar sc.values target v })
        ∧ (∀ vs, lookupVar (defineVar vs target v) target = some v) := by
  intro f ms ms1 env target e v h
  refine ⟨?_, ?_, ?_, ?_⟩
  · rw [show execStmt (Nat.succ f) ms env (Node.assign target e)
        = andThen (evalExpr f ms env e)
            (fun ms2 v2 => some (ms2.defineIn env target v2, Res.ok Value.none)) from rfl, h]
    rfl
  · intro j hj
    unfold MState.defineIn
    cases hq : ms1.scopes.get? env with
    | none => rfl
    | some sc => simp [List.getElem?_set_ne (Ne.symm hj)]
  · unfold MState.defineIn
    cases hq : ms1.scopes.get? env with
    | none =>
      have hq2 : ms1.scopes[env]? = Option.none := by
        rw [← List.get?_eq_getElem?]; exact hq
      simp [hq2]
    | some sc =>
      have hq2 : ms1.scopes[env]? = some sc := by
        rw [← List.get?_eq_getElem?]; exact hq
      simp [List.getElem?_set_self', hq2, Function.const]
  · intro vs
    induction vs with
    | nil => simp [defineVar, lookupVar]
    | cons kv rest ih =>
      by_cases hk : kv.1 = target
      · simp [defineVar, hk, lookupVar]
      · simp [defineVar, hk, lookupVar, ih]

/-- C4 witness. -/
theorem assign_defines_current_scope_w :
    execStmt 10 initState 0 (Node.assign "x" (Node.lit (Const.int 7)))
      = some (initState.defineIn 0 "x" (Value.int 7), Res.ok Value.none) :=
  (assign_defines_current_scope 9 initState initState 0 "x" (Node.lit (Const.int 7))
    (Value.int 7) rfl).1

/-- Unfolding equation for Function.call at positive fuel. -/
theorem callFunction_succ (f : Nat) (ms : MState) (ps : List String) (body : List Node)
    (cenv : Nat) (args : List Value) :
    callFunction (Nat.succ f) ms ps body cenv args
      = (match bindParams (ms.pushScope cenv) ms.scopes.length ps 0 args with
         | (ms2, some m) => some (ms2, Res.err m)
         | (ms2, Option.none) =>
           match execBlock f ms2 ms.scopes.length body with
           | Option.none => Option.none
           | some (ms3, Res.ret v) => some (ms3, Res.ok v)
           | some (ms3, Res.err m) => some (ms3, Res.err m)
           | some (ms3, Res.ok _) => some (ms3, Res.ok Value.none)) := rfl

/-- Unfolding equation for execute_block at positive fuel on a nonempty
statement list. -/
theorem execBlock_succ_cons (f : Nat) (ms : MState) (env : Nat) (s : Node) (rest : List Node) :
    execBlock (Nat.succ f) ms env (s :: rest)
      = (match execStmt f ms env s with
         | Option.none => Option.none
         | some (ms1, Res.ok _) => execBlock f ms1 env rest
         | some (ms1, r) => some (ms1, r)) := rfl

/-- C3: the ReturnException is intercepted exactly at the nearest
enclosing call boundary and never escapes a top-level run.
Part 1: a return with no expression yields the signal carrying None.
Part 2: when the body of a call propagates the returning signal, the call
boundary converts it into a normal completion with the carried value.
Part 3: within a block, a statement that raises the returning signal
aborts the remaining statements of the block (the result does not depend
on them).
Part 4: an inner call returning does not abort the enclosing function:
outer calls inner (which returns 1) and then continues to return 2.
Part 5: a returning signal that reaches the top level is caught by the
interpret try block and reported (the printed ReturnException message is
empty), never escaping as an uncaught failure. -/
theorem return_signal_call_boundary :
    (∀ f ms env, execStmt (Nat.succ f) ms env (Node.ret Option.none)
        = some (ms, Res.ret Value.none))
    ∧ (∀ f ms ms2 ms3 ps body cenv args v,
        bindParams (ms.pushScope cenv) ms.scopes.length ps 0 args = (ms2, Option.none) →
        execBlock f ms2 ms.scopes.length body = some (ms3, Res.ret v) →
        callFunction (Nat.succ f) ms ps body cenv args = some (ms3, Res.ok v))
    ∧ (∀ f ms ms1 env s rest v, execStmt f ms env s = some (ms1, Res.ret v) →
        execBlock (Nat.succ f) ms env (s :: rest) = some (ms1, Res.ret v))
    ∧ globalResult (interpret 100 Examples.innerOuterProgram) "result"
        = some (TopOutcome.normal, some (Value.int 2))
    ∧ (∀ f stmts ms v, execBlock f initState 0 stmts = some (ms, Res.ret v) →
        interpret f stmts = some (ms, TopOutcome.reported "Runtime Error: ")) := by
  refine ⟨fun _ _ _ => rfl, ?_, ?_, rfl, ?_⟩
  · intro f ms ms2 ms3 ps body cenv args v hb he
    rw [callFunction_succ, hb]
    simp only [he]
  · intro f ms ms1 env s rest v hs
    rw [execBlock_succ_cons, hs]
  · intro f stmts ms v htop
    unfold interpret
    rw [htop]

/-- C3 witness. -/
theorem return_signal_call_boundary_w :
    callFunction 6 initState [] [Node.ret (some (Node.lit (Const.int 1)))] 0 []
        = some (initState.pushScope 0, Res.ok (Value.int 1))
    ∧ execBlock 6 initState 0
        [Node.ret (some (Node.lit (Const.int 1))), Node.assign "x" (Node.lit (Const.int 9))]
        = some (initState, Res.ret (Value.int 1))
    ∧ interpret 10 [Node.ret (some (Node.lit (Const.int 1)))]
        = some (initState, TopOutcome.reported "Runtime Error: ") :=
  ⟨return_signal_call_boundary.2.1 5 initState (initState.pushScope 0) (initState.pushScope 0)
      [] [Node.ret (some (Node.lit (Const.int 1)))] 0 [] (Value.int 1) rfl rfl,
    return_signal_call_boundary.2.2.1 5 initState initState 0
      (Node.ret (some (Node.lit (Const.int 1)))) [Node.assign "x" (Node.lit (Const.int 9))]
      (Value.int 1) rfl,
    return_signal_call_boundary.2.2.2.2 10 [Node.ret (some (Node.lit (Const.int 1)))]
      initState (Value.int 1) rfl⟩

/-- C8 counterexample: calling a two-parameter closure with a single
argument is not fatal: the call runs to completion, returning the bound
parameter, with the second parameter silently left unbound. -/
theorem call_with_missing_arg_completes :
    resOf (callFunction 10 initState ["a", "b"]
      [Node.ret (some (Node.name "a"))] 0 [Value.int 1]) = some (Res.ok (Value.int 1)) := rfl

/-- Binding fails with the host IndexError exactly when the argument list
is longer than the remaining declared parameters. -/
theorem bindParams_snd_err :
    ∀ (args : List Value) (ps : List String) (ms : MState) (idx i : Nat),
      i ≤ ps.length → ps.length < i + args.length →
      (bindParams ms idx ps i args).2 = some "list index out of range" := by
  intro args
  induction args with
  | nil => intro ps ms idx i hle hlt; simp only [List.length_nil] at hlt; omega
  | cons a rest ih =>
    intro ps ms idx i hle hlt
    simp only [List.length_cons] at hlt
    unfold bindParams
    cases hp : ps.get? i with
    | some p =>
      have hi : i < ps.length := by
        obtain ⟨hl, _⟩ := List.get?_eq_some.mp hp
        exact hl
      exact ih ps (ms.defineIn idx p a) idx (i + 1) (by omega) (by omega)
    | none => rfl

/-- Binding succeeds when the parameters cover the arguments. -/
theorem bindParams_snd_ok :
    ∀ (args : List Value) (ps : List String) (ms : MState) (idx i : Nat),
      i + args.length ≤ ps.length →
      (bindParams ms idx ps i args).2 = Option.none := by
  intro args
  induction args with
  | nil => intro ps ms idx i _; rfl
  | cons a rest ih =>
    intro ps ms idx i hle
    simp only [List.length_cons] at hle
    unfold bindParams
    cases hp : ps.get? i with
    | some p => exact ih ps (ms.defineIn idx p a) idx (i + 1) (by omega)
    | none =>
      have := List.get?_eq_none.mp hp
      omega

/-- C8 amended: too many arguments raise the host IndexError while
binding parameters, aborting the call; too few arguments bind only the
provided parameters and the call proceeds, failing only if an unbound
parameter is actually read (an Undefined variable error at lookup time),
and completing normally otherwise. -/
theorem arity_mismatch_behaviour :
    (∀ f ms ps body cenv args, ps.length < args.length →
      callFunction (Nat.succ f) ms ps body cenv args
        = some ((bindParams (ms.pushScope cenv) ms.scopes.length ps 0 args).1,
                Res.err "list index out of range"))
    ∧ (∀ args ps (ms : MState) idx, args.length ≤ ps.length →
        (bindParams ms idx ps 0 args).2 = Option.none)
    ∧ resOf (callFunction 10 initState ["a", "b"]
        [Node.ret (some (Node.name "b"))] 0 [Value.int 1])
        = some (Res.err "Undefined variable b")
    ∧ resOf (callFunction 10 initState ["a"] [] 0 [Value.int 1, Value.int 2])
        = some (Res.err "list index out of range") := by
  refine ⟨?_, ?_, rfl, rfl⟩
  · intro f ms ps body cenv args hlt
    have h2 := bindParams_snd_err args ps (ms.pushScope cenv) ms.scopes.length 0
      (Nat.zero_le _) (by omega)
    rw [callFunction_succ]
    rcases hbp : bindParams (ms.pushScope cenv) ms.scopes.length ps 0 args with ⟨ms2, o⟩
    rw [hbp] at h2
    simp only at h2
    subst h2
    simp [hbp]
  · intro args ps ms idx hle
    exact bindParams_snd_ok args ps ms idx 0 (by omega)

/-- C8 amended witness. -/
theorem arity_mismatch_behaviour_w :
    callFunction 10 initState ["a"] [] 0 [Value.int 1, Value.int 2]
        = some ((bindParams (initState.pushScope 0) initState.scopes.length
                  ["a"] 0 [Value.int 1, Value.int 2]).1,
                Res.err "list index out of range")
    ∧ (bindParams initState 0 ["a", "b"] 0 [Value.int 1]).2 = Option.none :=
  ⟨arity_mismatch_behaviour.1 9 initState ["a"] [] 0 [Value.int 1, Value.int 2] (by decide),
    arity_mismatch_behaviour.2.1 [Value.int 1] ["a", "b"] initState 0 (by decide)⟩

/-- Unfolding equation for evaluate at a pipeline whose right side is a
call node. -/
theorem evalExpr_succ_pipeline_call (f : Nat) (ms : MState) (env : Nat) (l fe : Node)
    (cargs : List Node) :
    evalExpr (Nat.succ f) ms env (Node.pipeline l (Node.call fe cargs))
      = andThen (evalExpr f ms env l) (fun ms1 lv =>
          andThen (evalExpr f ms1 env fe) (fun ms2 callee =>
            andThenArgs (evalList f ms2 env cargs) (fun ms3 argv =>
              pipeInvoke f ms3 callee (lv :: argv)))) := rfl

/-- Unfolding equation for evaluate at a pipeline whose right side is a
bare name. -/
theorem evalExpr_succ_pipeline_name (f : Nat) (ms : MState) (env : Nat) (l : Node)
    (id : String) :
    evalExpr (Nat.succ f) ms env (Node.pipeline l (Node.name id))
      = andThen (evalExpr f ms env l) (fun ms1 lv =>
          andThen (evalExpr f ms1 env (Node.name id)) (fun ms2 callee =>
            pipeInvoke f ms2 callee [lv])) := rfl

/-- Unfolding equation for evaluate at a pipeline whose right side is
neither a call node nor a bare name: the left operand is evaluated and
the trailing raise fires. -/
theorem evalExpr_succ_pipeline_other (f : Nat) (ms : MState) (env : Nat) (l r : Node)
    (hc : isCallNode r = false) (hn : isNameNode r = false) :
    evalExpr (Nat.succ f) ms env (Node.pipeline l r)
      = andThen (evalExpr f ms env l)
          (fun ms1 _ => some (ms1, Res.err "Invalid pipeline right hand side")) := by
  cases r <;> first
    | rfl
    | exact Bool.noConfusion hc
    | exact Bool.noConfusion hn

/-- C2: pipe evaluation.
Part 1: with a call node on the right, the left operand is evaluated
first, then the callee, then the argument list, and the dispatch receives
the left value prepended to the argument values.
Part 2: the dispatch invokes a synchronous user closure on exactly that
prepended argument list, so a pipe into a call behaves as the call with
the left value as first argument.
Part 3: with a bare name on the right, the named callable is dispatched
on the left value as sole argument.
Part 4: any other right-hand shape: the left operand is still evaluated
first, then the Invalid pipeline right hand side error is raised.
Part 5: the design-document example: 10 piped into double() yields 20
(and the example module parses from its source text). -/
theorem pipeline_evaluation :
    (∀ f ms ms1 ms2 ms3 env l lv fe cargs callee argv,
      evalExpr f ms env l = some (ms1, Res.ok lv) →
      evalExpr f ms1 env fe = some (ms2, Res.ok callee) →
      evalList f ms2 env cargs = some (ms3, Res.ok (Value.list argv)) →
      evalExpr (Nat.succ f) ms env (Node.pipeline l (Node.call fe cargs))
        = pipeInvoke f ms3 callee (lv :: argv))
    ∧ (∀ f ms nm ps body cenv argv,
        pipeInvoke (Nat.succ f) ms (Value.closure false nm ps body cenv) argv
          = callFunction f ms ps body cenv argv)
    ∧ (∀ f ms ms1 ms2 env l lv id callee,
        evalExpr f ms env l = some (ms1, Res.ok lv) →
        evalExpr f ms1 env (Node.name id) = some (ms2, Res.ok callee) →
        evalExpr (Nat.succ f) ms env (Node.pipeline l (Node.name id))
          = pipeInvoke f ms2 callee [lv])
    ∧ (∀ f ms ms1 env l lv r,
        isCallNode r = false → isNameNode r = false →
        evalExpr f ms env l = some (ms1, Res.ok lv) →
        evalExpr (Nat.succ f) ms env (Node.pipeline l r)
          = some (ms1, Res.err "Invalid pipeline right hand side"))
    ∧ lexParse 1000 Examples.doubleSrc = some Examples.doubleProgram
    ∧ globalResult (interpret 100 Examples.doubleProgram) "result"
        = some (TopOutcome.normal, some (Value.int 20)) := by
  refine ⟨?_, fun _ _ _ _ _ _ _ => rfl, ?_, ?_, rfl, rfl⟩
  · intro f ms ms1 ms2 ms3 env l lv fe cargs callee argv h1 h2 h3
    rw [evalExpr_succ_pipeline_call]
    simp only [andThen, andThenArgs, h1, h2, h3]
  · intro f ms ms1 ms2 env l lv id callee h1 h2
    rw [evalExpr_succ_pipeline_name]
    simp only [andThen, h1, h2]
  · intro f ms ms1 env l lv r hc hn h1
    rw [evalExpr_succ_pipeline_other f ms env l r hc hn, h1]
    rfl

/-- C2 witness. -/
theorem pipeline_evaluation_w :
    evalExpr 6 initState 0
        (Node.pipeline (Node.lit (Const.int 10))
          (Node.call (Node.lam ["x"] (Node.name "x")) []))
      = pipeInvoke 5 initState
          (Value.closure false "<lambda>" ["x"] [Node.ret (some (Node.name "x"))] 0)
          [Value.int 10]
    ∧ evalExpr 6 initState 0
        (Node.pipeline (Node.lit (Const.int 10)) (Node.name "len"))
      = pipeInvoke 5 initState (Value.builtin "len") [Value.int 10]
    ∧ evalExpr 6 initState 0
        (Node.pipeline (Node.lit (Const.int 10)) (Node.lit (Const.int 3)))
      = some (initState, Res.err "Invalid pipeline right hand side") :=
  ⟨pipeline_evaluation.1 5 initState initState initState initState 0
      (Node.lit (Const.int 10)) (Value.int 10) (Node.lam ["x"] (Node.name "x")) []
      (Value.closure false "<lambda>" ["x"] [Node.ret (some (Node.name "x"))] 0) []
      rfl rfl rfl,
    pipeline_evaluation.2.2.1 5 initState initState initState 0
      (Node.lit (Const.int 10)) (Value.int 10) "len" (Value.builtin "len") rfl rfl,
    pipeline_evaluation.2.2.2.1 5 initState initState 0
      (Node.lit (Const.int 10)) (Value.int 10) (Node.lit (Const.int 3)) rfl rfl rfl⟩

/-- C7: apply_op implements exactly the operator set of the seven
recognised operators with host semantics (shown on host integers, plus
string concatenation for +), while every other operator string, the
parser-emitted spellings of the comparison operators NEQ, LTE and GTE
included, raises the Unknown operator error; the parser accepts those
three operators into binary-operation nodes. -/
theorem operator_table :
    (∀ a b : Int,
      applyOp "TokenType.PLUS" (Value.int a) (Value.int b) = Res.ok (Value.int (a + b))
      ∧ applyOp "+" (Value.int a) (Value.int b) = Res.ok (Value.int (a + b))
      ∧ applyOp "TokenType.MINUS" (Value.int a) (Value.int b) = Res.ok (Value.int (a - b))
      ∧ applyOp "TokenType.STAR" (Value.int a) (Value.int b) = Res.ok (Value.int (a * b)))
    ∧ (∀ s t : String, applyOp "TokenType.PLUS" (Value.str s) (Value.str t)
        = Res.ok (Value.str (s ++ t)))
    ∧ (∀ a b : Int, applyOp "TokenType.GT" (Value.int a) (Value.int b)
        = Res.ok (Value.bool (decide (b < a)))
      ∧ applyOp "TokenType.LT" (Value.int a) (Value.int b)
        = Res.ok (Value.bool (decide (a < b)))
      ∧ applyOp "TokenType.EQEQ" (Value.int a) (Value.int b)
        = Res.ok (Value.bool (decide (a = b))))
    ∧ (∀ a b : Int, b ≠ 0 →
        applyOp "TokenType.SLASH" (Value.int a) (Value.int b)
          = Res.ok (Value.float ((a : Rat) / (b : Rat))))
    ∧ (∀ op l r, op ∉ opTable → applyOp op l r = Res.err ("Unknown operator " ++ op))
    ∧ parseModule 50 neqTokens = some (Except.ok
        [Node.binOp (Node.lit (Const.int 1)) "TokenType.NEQ" (Node.lit (Const.int 2))])
    ∧ parseModule 50 lteTokens = some (Except.ok
        [Node.binOp (Node.lit (Const.int 1)) "TokenType.LTE" (Node.lit (Const.int 2))])
    ∧ parseModule 50 gteTokens = some (Except.ok
        [Node.binOp (Node.lit (Const.int 1)) "TokenType.GTE" (Node.lit (Const.int 2))])
    ∧ (∀ l r, applyOp "TokenType.NEQ" l r = Res.err "Unknown operator TokenType.NEQ"
      ∧ applyOp "TokenType.LTE" l r = Res.err "Unknown operator TokenType.LTE"
      ∧ applyOp "TokenType.GTE" l r = Res.err "Unknown operator TokenType.GTE") := by
  refine ⟨fun a b => ⟨rfl, rfl, rfl, rfl⟩, fun s t => rfl, ?_, ?_, ?_, rfl, rfl, rfl,
    fun l r => ⟨rfl, rfl, rfl⟩⟩
  · intro a b
    refine ⟨?_, ?_, ?_⟩
    · show Res.ok (Value.bool ((b : Rat) < (a : Rat) : Bool)) = _
      rw [decide_eq_decide.mpr Int.cast_lt]
    · show Res.ok (Value.bool ((a : Rat) < (b : Rat) : Bool)) = _
      rw [decide_eq_decide.mpr Int.cast_lt]
    · show Res.ok (Value.bool ((a : Rat) == (b : Rat))) = _
      rw [show ((a : Rat) == (b : Rat)) = decide ((a : Rat) = (b : Rat)) from rfl,
        decide_eq_decide.mpr Int.cast_inj]
  · intro a b hb
    have hb2 : (b : Rat) ≠ 0 := Int.cast_ne_zero.mpr hb
    show (if (b : Rat) = 0 then Res.err "division by zero"
          else Res.ok (Value.float ((a : Rat) / (b : Rat)))) = _
    rw [if_neg hb2]
  · intro op l r hop
    simp only [opTable, List.mem_cons, List.not_mem_nil, or_false, not_or] at hop
    obtain ⟨n1, n2, n3, n4, n5, n6, n7, n8, n9, n10, n11, n12, n13, n14⟩ := hop
    simp [applyOp, n1, n2, n3, n4, n5, n6, n7, n8, n9, n10, n11, n12, n13, n14]

/-- C7 witness. -/
theorem operator_table_w :
    applyOp "TokenType.SLASH" (Value.int 7) (Value.int 2)
        = Res.ok (Value.float ((7 : Rat) / (2 : Rat)))
    ∧ applyOp "%" (Value.int 1) (Value.int 2) = Res.err "Unknown operator %" :=
  ⟨operator_table.2.2.2.1 7 2 (by decide),
    operator_table.2.2.2.2.1 "%" (Value.int 1) (Value.int 2) (by decide)⟩

/-- C5 counterexample: spawn followed by a bare name (not a call
expression) parses without any syntax error, producing a Spawn node
wrapping the name. -/
theorem spawn_bare_name_parses :
    parseModule 50 spawnNameTokens = some (Except.ok [Node.spawn (Node.name "x")]) := rfl

/-- C5 amended: in the parser, spawn binds to whatever the call
production parses next, with no check that it is a call expression: the
unary method wraps the parseCall result in a Spawn node unconditionally,
and spawn followed by a bare name or a number literal parses
successfully. -/
theorem spawn_accepts_any_call_production :
    (∀ f ts pos n pos2,
      checkTok ts pos TokenType.SPAWN = true →
      parseCall f ts (pos + 1) = some (Except.ok (PAns.one n pos2)) →
      parseUnary (Nat.succ f) ts pos = some (Except.ok (PAns.one (Node.spawn n) pos2)))
    ∧ parseModule 50 spawnNumTokens = some (Except.ok [Node.spawn (Node.lit (Const.int 5))]) := by
  refine ⟨?_, rfl⟩
  intro f ts pos n pos2 h hcall
  have hm : matchTok ts pos [TokenType.SPAWN] = some (TokenType.SPAWN, pos + 1) := by
    simp [matchTok, h]
  unfold parseUnary
  unfold pstep
  rw [hm]
  simp only [pbindOne]
  rw [show pstep ts f (PReq.callC (pos + 1)) = some (Except.ok (PAns.one n pos2)) from hcall]

/-- C5 amended witness. -/
theorem spawn_accepts_any_call_production_w :
    parseUnary 20 spawnNameTokens 0 = some (Except.ok (PAns.one (Node.spawn (Node.name "x")) 2)) :=
  spawn_accepts_any_call_production.1 19 spawnNameTokens 0 (Node.name "x") 2 rfl rfl

/-- Unfolding equation for evaluate_async at a spawn of a call node. -/
theorem evalAsync_succ_spawn_call (f : Nat) (ms : MState) (env : Nat) (fe : Node)
    (cargs : List Node) :
    evalAsyncExpr (Nat.succ f) ms env (Node.spawn (Node.call fe cargs))
      = andThen (evalAsyncExpr f ms env fe) (fun ms1 callee =>
          andThenArgs (evalAsyncList f ms1 env cargs) (fun ms2 argv =>
            match callee with
            | Value.closure true _ ps body cenv =>
              some ({ ms2 with tasks := ms2.tasks ++ [TaskState.pending ps body cenv argv] },
                    Res.ok (Value.task ms2.tasks.length))
            | _ => some (ms2, Res.err "Spawn requires a call to an async function"))) := rfl

/-- C6: spawn on the asynchronous evaluation path.
Part 1: a spawn whose operand is not even a call node raises the runtime
error at once.
Part 2: when the operand is a call node, the callee and the arguments are
evaluated, and if the callee is anything other than an asynchronous
closure the same runtime error is raised.
Part 3: when the callee is an asynchronous closure, a new pending task
holding the closure and the already-evaluated arguments is appended to
the task arena and a handle to it is returned at once: the scope arena is
exactly the one after argument evaluation, no part of the body having
run. -/
theorem spawn_requires_async_call :
    (∀ f ms env c, isCallNode c = false →
      evalAsyncExpr (Nat.succ f) ms env (Node.spawn c)
        = some (ms, Res.err "Spawn requires a call to an async function"))
    ∧ (∀ f ms ms1 ms2 env fe cargs callee argv,
        evalAsyncExpr f ms env fe = some (ms1, Res.ok callee) →
        evalAsyncList f ms1 env cargs = some (ms2, Res.ok (Value.list argv)) →
        (∀ nm ps body cenv, callee ≠ Value.closure true nm ps body cenv) →
        evalAsyncExpr (Nat.succ f) ms env (Node.spawn (Node.call fe cargs))
          = some (ms2, Res.err "Spawn requires a call to an async function"))
    ∧ (∀ f ms ms1 ms2 env fe cargs nm ps body cenv argv,
        evalAsyncExpr f ms env fe = some (ms1, Res.ok (Value.closure true nm ps body cenv)) →
        evalAsyncList f ms1 env cargs = some (ms2, Res.ok (Value.list argv)) →
        evalAsyncExpr (Nat.succ f) ms env (Node.spawn (Node.call fe cargs))
          = some ({ scopes := ms2.scopes,
                    tasks := ms2.tasks ++ [TaskState.pending ps body cenv argv] },
                  Res.ok (Value.task ms2.tasks.length))) := by
  refine ⟨?_, ?_, ?_⟩
  · intro f ms env c hc
    cases c <;> first
      | rfl
      | exact Bool.noConfusion hc
  · intro f ms ms1 ms2 env fe cargs callee argv h1 h2 hna
    rw [evalAsync_succ_spawn_call]
    -- the default-arm equation of the dispatch carries exactly the
    -- hypothesis hna as its side condition, which simp discharges
    simp only [andThen, andThenArgs, h1, h2]
  · intro f ms ms1 ms2 env fe cargs nm ps body cenv argv h1 h2
    rw [evalAsync_succ_spawn_call]
    simp only [andThen, andThenArgs, h1, h2]

/-- C6 witness. -/
theorem spawn_requires_async_call_w :
    evalAsyncExpr 10 Examples.asyncGlobals 0 (Node.spawn (Node.name "g"))
        = some (Examples.asyncGlobals, Res.err "Spawn requires a call to an async function")
    ∧ evalAsyncExpr 10 Examples.asyncGlobals 0 (Node.spawn (Node.call (Node.name "len") []))
        = some (Examples.asyncGlobals, Res.err "Spawn requires a call to an async function")
    ∧ evalAsyncExpr 10 Examples.asyncGlobals 0 (Node.spawn (Node.call (Node.name "g") []))
        = some ({ scopes := Examples.asyncGlobals.scopes,
                  tasks := [TaskState.pending []
                    [Node.ret (some (Node.lit (Const.int 42)))] 0 []] },
                Res.ok (Value.task 0)) :=
  ⟨spawn_requires_async_call.1 9 Examples.asyncGlobals 0 (Node.name "g") rfl,
    spawn_requires_async_call.2.1 9 Examples.asyncGlobals Examples.asyncGlobals
      Examples.asyncGlobals 0 (Node.name "len") [] (Value.builtin "len") [] rfl rfl
      (fun _ _ _ _ h => Value.noConfusion h),
    spawn_requires_async_call.2.2 9 Examples.asyncGlobals Examples.asyncGlobals
      Examples.asyncGlobals 0 (Node.name "g") [] "g" []
      [Node.ret (some (Node.lit (Const.int 42)))] 0 [] rfl rfl⟩



theorem countTT_append (t : TokenType) (ts1 ts2 : List Token) :
    countTT t (ts1 ++ ts2) = countTT t ts1 + countTT t ts2 :=
  List.countP_append _ _ _

theorem countTT_singleton (t : TokenType) (tok : Token) :
    countTT t [tok] = if tok.type = t then 1 else 0 := by
  by_cases h : tok.type = t <;> simp [countTT, List.countP_cons, h]

theorem countTT_snoc_ne (t : TokenType) (ts : List Token) (tok : Token) (h : tok.type ≠ t) :
    countTT t (ts ++ [tok]) = countTT t ts := by
  rw [countTT_append, countTT_singleton, if_neg h, Nat.add_zero]

theorem countTT_snoc_eq (t : TokenType) (ts : List Token) (tok : Token) (h : tok.type = t) :
    countTT t (ts ++ [tok]) = countTT t ts + 1 := by
  rw [countTT_append, countTT_singleton, if_pos h]

theorem countTT_nil (t : TokenType) : countTT t [] = 0 := rfl

theorem countTT_cons (t : TokenType) (tok : Token) (rest : List Token) :
    countTT t (tok :: rest) = countTT t rest + if tok.type = t then 1 else 0 := by
  by_cases h : tok.type = t <;> simp [countTT, List.countP_cons, h]

theorem countTT_singleton_eq (t : TokenType) (tok : Token) (h : tok.type = t) :
    countTT t [tok] = 1 := by
  rw [countTT_singleton, if_pos h]

theorem countTT_singleton_ne (t : TokenType) (tok : Token) (h : tok.type ≠ t) :
    countTT t [tok] = 0 := by
  rw [countTT_singleton, if_neg h]

/-- Appending one token preserves the prefix property as long as the full
new list itself is balance-nonnegative. -/
theorem Pref.snoc {ts : List Token} {tok : Token} (h : Pref ts)
    (hle : countTT TokenType.DEDENT (ts ++ [tok]) ≤ countTT TokenType.INDENT (ts ++ [tok])) :
    Pref (ts ++ [tok]) := by
  intro p hp
  rcases List.prefix_concat_iff.mp hp with heq | hpre
  · rw [heq]; exact hle
  · exact h p hpre

/-- Appending a token that is neither INDENT nor DEDENT preserves the
whole invariant and leaves the stack untouched. -/
theorem LInv.addTok {st : LState} (h : LInv st) (tok : Token)
    (hI : tok.type ≠ TokenType.INDENT) (hD : tok.type ≠ TokenType.DEDENT) :
    LInv { st with tokens := st.tokens ++ [tok] } := by
  refine ⟨?_, h.bot, ?_⟩
  · simpa [countTT_snoc_ne _ _ _ hI, countTT_snoc_ne _ _ _ hD] using h.bal
  · exact h.pref.snoc (by
      rw [countTT_snoc_ne _ _ _ hI, countTT_snoc_ne _ _ _ hD]
      have := h.bal
      have hstack : 1 ≤ st.stack.length := by
        obtain ⟨pre, hpre⟩ := h.bot
        simp [hpre]
      omega)

/-- A state with the same tokens and stack satisfies the same invariant. -/
theorem LInv.congr {st st1 : LState} (h : LInv st)
    (ht : st1.tokens = st.tokens) (hs : st1.stack = st.stack) : LInv st1 := by
  refine ⟨?_, ?_, ?_⟩
  · rw [ht, hs]; exact h.bal
  · rw [hs]; exact h.bot
  · rw [ht]; exact h.pref

theorem advanceChar_tokens (c : Char) (st : LState) : (advanceChar c st).tokens = st.tokens := by
  unfold advanceChar; split <;> rfl

theorem advanceChar_stack (c : Char) (st : LState) : (advanceChar c st).stack = st.stack := by
  unfold advanceChar; split <;> rfl

theorem skipComment_spec : ∀ (src : List Char) (st : LState),
    (skipComment src st).2.tokens = st.tokens ∧ (skipComment src st).2.stack = st.stack := by
  intro src
  induction src with
  | nil => intro st; exact ⟨rfl, rfl⟩
  | cons c rest ih =>
    intro st
    unfold skipComment
    split
    · exact ⟨rfl, rfl⟩
    · rw [(ih (advanceChar c st)).1, (ih (advanceChar c st)).2,
        advanceChar_tokens, advanceChar_stack]
      exact ⟨rfl, rfl⟩

theorem skipIndentSpaces_spec : ∀ (src : List Char) (st : LState),
    (skipIndentSpaces src st).2.tokens = st.tokens ∧ (skipIndentSpaces src st).2.stack = st.stack := by
  intro src
  induction src with
  | nil => intro st; exact ⟨rfl, rfl⟩
  | cons c rest ih =>
    intro st
    unfold skipIndentSpaces
    split
    · rw [(ih (advanceChar c st)).1, (ih (advanceChar c st)).2,
        advanceChar_tokens, advanceChar_stack]
      exact ⟨rfl, rfl⟩
    · exact ⟨rfl, rfl⟩

theorem readIdent_spec : ∀ (src : List Char) (st : LState) (acc : String),
    (readIdent src st acc).2.1.tokens = st.tokens ∧ (readIdent src st acc).2.1.stack = st.stack := by
  intro src
  induction src with
  | nil => intro st acc; exact ⟨rfl, rfl⟩
  | cons c rest ih =>
    intro st acc
    unfold readIdent
    split
    · rw [(ih (advanceChar c st) (acc.push c)).1, (ih (advanceChar c st) (acc.push c)).2,
        advanceChar_tokens, advanceChar_stack]
      exact ⟨rfl, rfl⟩
    · exact ⟨rfl, rfl⟩

theorem readNum_spec : ∀ (src : List Char) (st : LState) (acc : String) (isF : Bool),
    (readNum src st acc isF).2.1.tokens = st.tokens
      ∧ (readNum src st acc isF).2.1.stack = st.stack := by
  intro src
  induction src with
  | nil => intro st acc isF; exact ⟨rfl, rfl⟩
  | cons c rest ih =>
    intro st acc isF
    unfold readNum
    split
    · rw [(ih (advanceChar c st) (acc.push c) isF).1,
        (ih (advanceChar c st) (acc.push c) isF).2, advanceChar_tokens, advanceChar_stack]
      exact ⟨rfl, rfl⟩
    · split
      · split
        · exact ⟨rfl, rfl⟩
        · rw [(ih (advanceChar c st) (acc.push c) true).1,
            (ih (advanceChar c st) (acc.push c) true).2, advanceChar_tokens, advanceChar_stack]
          exact ⟨rfl, rfl⟩
      · exact ⟨rfl, rfl⟩

theorem readStrBody_spec_aux : ∀ (n : Nat) (src : List Char), src.length ≤ n →
    ∀ (st : LState) (q : Char) (acc : String)
      (src1 : List Char) (st1 : LState) (acc1 : String),
    readStrBody src st q acc = Except.ok (src1, st1, acc1) →
    st1.tokens = st.tokens ∧ st1.stack = st.stack := by
  intro n
  induction n with
  | zero =>
    intro src hlen st q acc src1 st1 acc1 h
    have : src = [] := List.length_eq_zero.mp (Nat.le_zero.mp hlen)
    subst this
    exact absurd h (by simp [readStrBody])
  | succ n ih =>
    intro src hlen st q acc src1 st1 acc1 h
    cases src with
    | nil => exact absurd h (by simp [readStrBody])
    | cons c rest =>
      simp only [List.length_cons] at hlen
      unfold readStrBody at h
      split at h
      · simp only [Except.ok.injEq, Prod.mk.injEq] at h
        obtain ⟨h1, h2, h3⟩ := h
        subst h2
        rw [advanceChar_tokens, advanceChar_stack]
        exact ⟨rfl, rfl⟩
      · split at h
        · match hr : rest, h with
          | [], h => exact absurd h (by simp)
          | c2 :: rest2, h =>
            have := ih rest2 (by simp_all; omega) _ q (acc.push c2) src1 st1 acc1 h
            rwa [advanceChar_tokens, advanceChar_stack, advanceChar_tokens, advanceChar_stack]
              at this
        · have := ih rest (by omega) _ q (acc.push c) src1 st1 acc1 h
          rwa [advanceChar_tokens, advanceChar_stack] at this

theorem readStrBody_spec (src : List Char) (st : LState) (q : Char) (acc : String)
    (src1 : List Char) (st1 : LState) (acc1 : String)
    (h : readStrBody src st q acc = Except.ok (src1, st1, acc1)) :
    st1.tokens = st.tokens ∧ st1.stack = st.stack :=
  readStrBody_spec_aux src.length src (Nat.le_refl _) st q acc src1 st1 acc1 h

theorem keywordTable_some (s : String) (t : TokenType) (h : keywordTable s = some t) :
    t ≠ TokenType.INDENT ∧ t ≠ TokenType.DEDENT := by
  unfold keywordTable at h
  obtain ⟨p, hp, hpt⟩ := Option.map_eq_some'.mp h
  have hmem := List.mem_of_find?_eq_some hp
  subst hpt
  fin_cases hmem <;> exact ⟨by decide, by decide⟩

theorem keywordTable_not_structural (s : String) :
    (keywordTable s).getD TokenType.IDENTIFIER ≠ TokenType.INDENT
    ∧ (keywordTable s).getD TokenType.IDENTIFIER ≠ TokenType.DEDENT := by
  cases h : keywordTable s with
  | none => exact ⟨by decide, by decide⟩
  | some t => simpa [Option.getD] using keywordTable_some s t h

theorem symbolToken_not_structural : ∀ (c : Char) (next : Option Char) (tt : TokenType)
    (two : Bool), symbolToken c next = some (tt, two) →
    tt ≠ TokenType.INDENT ∧ tt ≠ TokenType.DEDENT := by
  have oneChar : ∀ (c : Char) (tt : TokenType) (two : Bool),
      (oneCharList.find? (fun p => p.1 == c)).map (fun p => (p.2, false)) = some (tt, two) →
      tt ≠ TokenType.INDENT ∧ tt ≠ TokenType.DEDENT := by
    intro c tt two h
    obtain ⟨p, hp, hpt⟩ := Option.map_eq_some'.mp h
    simp only [Prod.mk.injEq] at hpt
    obtain ⟨h1, _⟩ := hpt
    subst h1
    have hmem := List.mem_of_find?_eq_some hp
    fin_cases hmem <;> exact ⟨by decide, by decide⟩
  intro c next tt two h
  unfold symbolToken at h
  cases next with
  | none => exact oneChar c tt two h
  | some c2 =>
    replace h : (match twoCharList.find? (fun p => p.1.1 == c && p.1.2 == c2) with
        | some p => some (p.2, true)
        | Option.none =>
          (oneCharList.find? (fun p => p.1 == c)).map (fun p => (p.2, false)))
        = some (tt, two) := h
    cases hf : twoCharList.find? (fun p => p.1.1 == c && p.1.2 == c2) with
    | none =>
      rw [hf] at h
      exact oneChar c tt two h
    | some p =>
      rw [hf] at h
      simp only [Option.some.injEq, Prod.mk.injEq] at h
      obtain ⟨h1, _⟩ := h
      subst h1
      have hmem := List.mem_of_find?_eq_some hf
      fin_cases hmem <;> exact ⟨by decide, by decide⟩

theorem handleSymbol_spec : ∀ (src : List Char) (st : LState) (src1 : List Char) (st1 : LState),
    handleSymbol src st = Except.ok (src1, st1) →
    st1.stack = st.stack
    ∧ (st1.tokens = st.tokens
      ∨ ∃ tok, st1.tokens = st.tokens ++ [tok]
          ∧ tok.type ≠ TokenType.INDENT ∧ tok.type ≠ TokenType.DEDENT) := by
  intro src st src1 st1 h
  cases src with
  | nil =>
    simp only [handleSymbol, Except.ok.injEq, Prod.mk.injEq] at h
    obtain ⟨_, h2⟩ := h
    subst h2
    exact ⟨rfl, Or.inl rfl⟩
  | cons c rest =>
    simp only [handleSymbol] at h
    cases hs : symbolToken c rest.head? with
    | none => rw [hs] at h; exact absurd h (by simp)
    | some p =>
      obtain ⟨tt, two⟩ := p
      rw [hs] at h
      cases two with
      | true =>
        cases rest with
        | nil => exact absurd h (by simp)
        | cons c2 rest2 =>
          simp only [Except.ok.injEq, Prod.mk.injEq] at h
          obtain ⟨_, h2⟩ := h
          subst h2
          obtain ⟨hI, hD⟩ := symbolToken_not_structural c (c2 :: rest2).head? tt true hs
          refine ⟨by simp [emitTok, advanceChar_stack],
            Or.inr ⟨{ type := tt, value := TValue.str (String.singleton c),
                      line := (advanceChar c2 (advanceChar c st)).line, column := st.col },
              ?_, hI, hD⟩⟩
          rw [show (emitTok (advanceChar c2 (advanceChar c st)) tt c st.col).tokens
              = (advanceChar c2 (advanceChar c st)).tokens
                ++ [{ type := tt, value := TValue.str (String.singleton c),
                      line := (advanceChar c2 (advanceChar c st)).line,
                      column := st.col }] from rfl,
            advanceChar_tokens, advanceChar_tokens]
      | false =>
        simp only [Except.ok.injEq, Prod.mk.injEq] at h
        obtain ⟨_, h2⟩ := h
        subst h2
        obtain ⟨hI, hD⟩ := symbolToken_not_structural c rest.head? tt false hs
        refine ⟨by simp [emitTok, advanceChar_stack],
          Or.inr ⟨{ type := tt, value := TValue.str (String.singleton c),
                    line := (advanceChar c st).line, column := st.col },
            ?_, hI, hD⟩⟩
        rw [show (emitTok (advanceChar c st) tt c st.col).tokens
            = (advanceChar c st).tokens
              ++ [{ type := tt, value := TValue.str (String.singleton c),
                    line := (advanceChar c st).line, column := st.col }] from rfl,
          advanceChar_tokens]

theorem popDedents_spec : ∀ (stack : List Nat) (toks : List Token) (lvl line : Nat)
    (stack1 : List Nat) (toks1 : List Token),
    popDedents lvl line stack toks = Except.ok (stack1, toks1) →
    countTT TokenType.INDENT toks + 1 = countTT TokenType.DEDENT toks + stack.length →
    Pref toks → (∃ pre, stack = pre ++ [0]) →
    countTT TokenType.INDENT toks1 + 1 = countTT TokenType.DEDENT toks1 + stack1.length
    ∧ Pref toks1 ∧ (∃ pre1, stack1 = pre1 ++ [0]) := by
  intro stack
  induction stack with
  | nil => intro toks lvl line stack1 toks1 h; exact absurd h (by simp [popDedents])
  | cons top rest ih =>
    intro toks lvl line stack1 toks1 h hbal hpref hbot
    unfold popDedents at h
    split at h
    · rename_i hlt
      obtain ⟨pre, hpre⟩ := hbot
      cases pre with
      | nil =>
        simp only [List.nil_append, List.cons.injEq] at hpre
        obtain ⟨h1, _⟩ := hpre
        subst h1
        exact absurd hlt (by omega)
      | cons p0 pre2 =>
        simp only [List.cons_append, List.cons.injEq] at hpre
        obtain ⟨_, hrest⟩ := hpre
        have hlen : rest.length = pre2.length + 1 := by rw [hrest]; simp
        simp only [List.length_cons] at hbal
        refine ih (toks ++ [{ type := TokenType.DEDENT, line := line, column := 1 }])
          lvl line stack1 toks1 h ?_ ?_ ⟨pre2, hrest⟩
        · simp [countTT_append, countTT_singleton_eq, countTT_singleton_ne]
          omega
        · refine hpref.snoc ?_
          simp [countTT_append, countTT_singleton_eq, countTT_singleton_ne]
          omega
    · split at h
      · exact absurd h (by simp)
      · simp only [Except.ok.injEq, Prod.mk.injEq] at h
        obtain ⟨h1, h2⟩ := h
        subst h1
        subst h2
        exact ⟨hbal, hpref, hbot⟩

theorem processIndent_spec : ∀ (lvl line : Nat) (stack : List Nat) (toks : List Token)
    (stack1 : List Nat) (toks1 : List Token),
    processIndent lvl line stack toks = Except.ok (stack1, toks1) →
    countTT TokenType.INDENT toks + 1 = countTT TokenType.DEDENT toks + stack.length →
    Pref toks → (∃ pre, stack = pre ++ [0]) →
    countTT TokenType.INDENT toks1 + 1 = countTT TokenType.DEDENT toks1 + stack1.length
    ∧ Pref toks1 ∧ (∃ pre1, stack1 = pre1 ++ [0]) := by
  intro lvl line stack toks stack1 toks1 h hbal hpref hbot
  have hstack1 : 1 ≤ stack.length := by
    obtain ⟨pre, hpre⟩ := hbot
    simp [hpre]
  have hbal2 : countTT TokenType.INDENT
        (toks ++ [{ type := TokenType.NEWLINE, line := line - 1, column := 1 }]) + 1
      = countTT TokenType.DEDENT
          (toks ++ [{ type := TokenType.NEWLINE, line := line - 1, column := 1 }])
        + stack.length := by
    simp [countTT_append, countTT_singleton_eq, countTT_singleton_ne]
    omega
  have hpref2 : Pref (toks ++ [{ type := TokenType.NEWLINE, line := line - 1, column := 1 }]) := by
    refine hpref.snoc ?_
    simp [countTT_append, countTT_singleton_eq, countTT_singleton_ne]
    omega
  cases stack with
  | nil => obtain ⟨pre, hpre⟩ := hbot; exact absurd hpre (by simp)
  | cons top rest =>
    simp only [List.length_cons] at hbal hbal2
    simp only [processIndent] at h
    split at h
    · simp only [Except.ok.injEq, Prod.mk.injEq] at h
      obtain ⟨h1, h2⟩ := h
      subst h1
      subst h2
      refine ⟨?_, ?_, ?_⟩
      · simp [countTT_append, countTT_cons, countTT_nil, List.length_cons]
        omega
      · refine hpref2.snoc ?_
        simp [countTT_append, countTT_cons, countTT_nil] at hbal2 ⊢
        omega
      · obtain ⟨pre, hpre⟩ := hbot
        exact ⟨lvl :: pre, by simp [hpre]⟩
    · split at h
      · exact popDedents_spec (top :: rest) _ lvl line stack1 toks1 h
          (by simp only [List.length_cons]; exact hbal2) hpref2 hbot
      · simp only [Except.ok.injEq, Prod.mk.injEq] at h
        obtain ⟨h1, h2⟩ := h
        subst h1
        subst h2
        exact ⟨by simp only [List.length_cons]; exact hbal2, hpref2, hbot⟩

theorem handleNewline_spec : ∀ (src : List Char) (st : LState) (src1 : List Char) (st1 : LState),
    handleNewline src st = Except.ok (src1, st1) → LInv st → LInv st1 := by
  intro src st src1 st1 h hinv
  cases src with
  | nil =>
    simp only [handleNewline, Except.ok.injEq, Prod.mk.injEq] at h
    obtain ⟨_, h2⟩ := h
    subst h2
    exact hinv
  | cons c rest =>
    obtain ⟨htok, hstk⟩ := skipIndentSpaces_spec rest (advanceChar c st)
    rw [advanceChar_tokens] at htok
    rw [advanceChar_stack] at hstk
    simp only [handleNewline] at h
    split at h
    · simp only [Except.ok.injEq, Prod.mk.injEq] at h
      obtain ⟨_, h2⟩ := h
      subst h2
      exact hinv.congr htok hstk
    · split at h
      · simp only [Except.ok.injEq, Prod.mk.injEq] at h
        obtain ⟨_, h2⟩ := h
        subst h2
        exact hinv.congr htok hstk
      · split at h
        · exact absurd h (by simp)
        · rename_i stack1 tokens1 heq
          simp only [Except.ok.injEq, Prod.mk.injEq] at h
          obtain ⟨_, h2⟩ := h
          subst h2
          have hspec := processIndent_spec _ _ _ _ _ _ heq
            (by rw [htok, hstk]; exact hinv.bal)
            (by rw [htok]; exact hinv.pref)
            (by rw [hstk]; exact hinv.bot)
          exact ⟨hspec.1, hspec.2.2, hspec.2.1⟩

theorem lexLoop_inv : ∀ (fuel : Nat) (src : List Char) (st st1 : LState),
    lexLoop fuel src st = some (Except.ok st1) → LInv st → LInv st1 := by
  intro fuel
  induction fuel with
  | zero => intro src st st1 h; exact absurd h (by simp [lexLoop])
  | succ f ih =>
    intro src st st1 h hinv
    cases src with
    | nil =>
      simp only [lexLoop, Option.some.injEq, Except.ok.injEq] at h
      subst h
      exact hinv
    | cons c rest =>
      simp only [lexLoop] at h
      split_ifs at h with h1 h2 h3 h4 h5 h6
      · -- comment
        obtain ⟨ht, hs⟩ := skipComment_spec (c :: rest) st
        exact ih _ _ _ h (hinv.congr ht hs)
      · -- newline
        split at h
        · exact absurd h (by simp)
        · rename_i src2 st2 heq
          exact ih _ _ _ h (handleNewline_spec (c :: rest) st src2 st2 heq hinv)
      · -- other whitespace
        exact ih _ _ _ h
          (hinv.congr (advanceChar_tokens c st) (advanceChar_stack c st))
      · -- identifier or keyword
        obtain ⟨ht, hs⟩ := readIdent_spec (c :: rest) st ""
        obtain ⟨hI, hD⟩ := keywordTable_not_structural (readIdent (c :: rest) st "").2.2
        refine ih _ _ _ h ?_
        exact LInv.congr ((hinv.congr ht hs).addTok _ hI hD) rfl rfl
      · -- number
        obtain ⟨ht, hs⟩ := readNum_spec (c :: rest) st "" false
        refine ih _ _ _ h ?_
        exact LInv.congr ((hinv.congr ht hs).addTok _ (by simp) (by simp)) rfl rfl
      · -- string
        split at h
        · exact absurd h (by simp)
        · rename_i src2 st2 acc2 heq
          obtain ⟨ht, hs⟩ := readStrBody_spec rest (advanceChar c st) c "" src2 st2 acc2 heq
          rw [advanceChar_tokens] at ht
          rw [advanceChar_stack] at hs
          refine ih _ _ _ h ?_
          exact LInv.congr ((hinv.congr ht hs).addTok _ (by simp) (by simp)) rfl rfl
      · -- symbol
        split at h
        · exact absurd h (by simp)
        · rename_i src2 st2 heq
          obtain ⟨hs, hd⟩ := handleSymbol_spec (c :: rest) st src2 st2 heq
          cases hd with
          | inl ht => exact ih _ _ _ h (hinv.congr ht hs)
          | inr hex =>
            obtain ⟨tok, ht, hI, hD⟩ := hex
            refine ih _ _ _ h ?_
            exact LInv.congr (hinv.addTok tok hI hD) ht hs

theorem popRemaining_spec : ∀ (stack : List Nat) (toks : List Token) (line : Nat),
    countTT TokenType.INDENT toks + 1 = countTT TokenType.DEDENT toks + stack.length →
    Pref toks → stack ≠ [] →
    countTT TokenType.INDENT (popRemaining stack toks line).2
      = countTT TokenType.DEDENT (popRemaining stack toks line).2
    ∧ Pref (popRemaining stack toks line).2 := by
  intro stack
  induction stack with
  | nil => intro toks line hbal hpref hne; exact absurd rfl hne
  | cons top rest ih =>
    intro toks line hbal hpref hne
    cases rest with
    | nil =>
      simp only [popRemaining]
      simp only [List.length_cons, List.length_nil] at hbal
      exact ⟨by omega, hpref⟩
    | cons r0 rrest =>
      simp only [popRemaining]
      simp only [List.length_cons] at hbal
      refine ih (toks ++ [{ type := TokenType.DEDENT, line := line, column := 1 }]) line ?_ ?_
        (by simp)
      · simp [countTT_append, countTT_cons, countTT_nil, List.length_cons]
        omega
      · refine hpref.snoc ?_
        simp [countTT_append, countTT_cons, countTT_nil]
        omega

theorem handleEof_spec (st : LState) (hinv : LInv st) :
    countTT TokenType.INDENT (handleEof st).tokens
      = countTT TokenType.DEDENT (handleEof st).tokens
    ∧ Pref (handleEof st).tokens
    ∧ ∃ pre ln, (handleEof st).tokens
        = pre ++ [{ type := TokenType.EOF, line := ln, column := 1 }]
      ∧ countTT TokenType.INDENT pre = countTT TokenType.DEDENT pre := by
  unfold handleEof
  set st1 : LState :=
    (match st.tokens.getLast? with
    | some tok =>
      if tok.type ≠ TokenType.NEWLINE ∧ tok.type ≠ TokenType.DEDENT then
        { st with tokens := st.tokens ++
          [{ type := TokenType.NEWLINE, line := st.line, column := 1 }] }
      else st
    | Option.none => st) with hst1
  have hinv1 : LInv st1 := by
    rw [hst1]
    cases st.tokens.getLast? with
    | none => exact hinv
    | some tok =>
      by_cases hc : tok.type ≠ TokenType.NEWLINE ∧ tok.type ≠ TokenType.DEDENT
      · simp only [if_pos hc]
        exact hinv.addTok _ (by simp) (by simp)
      · simp only [if_neg hc]
        exact hinv
  have hne : st1.stack ≠ [] := by
    obtain ⟨pre, hpre⟩ := hinv1.bot
    simp [hpre]
  have hpop := popRemaining_spec st1.stack st1.tokens st1.line hinv1.bal hinv1.pref hne
  refine ⟨?_, ?_, ⟨(popRemaining st1.stack st1.tokens st1.line).2, st1.line, rfl, hpop.1⟩⟩
  · simp only [countTT_append, countTT_cons, countTT_nil]
    simp
    omega
  · refine hpop.2.snoc ?_
    simp [countTT_append, countTT_cons, countTT_nil]
    omega

/-- C9: for every source text the lexer tokenizes without error, the
produced token sequence has equal INDENT and DEDENT counts, every prefix
has at least as many INDENT as DEDENT tokens, and the tokens before the
final EOF token are already exactly balanced (the nesting has returned to
level zero before EOF). -/
theorem indent_dedent_balanced :
    ∀ (src : List Char) (ts : List Token), tokenize src = some (Except.ok ts) →
      countTT TokenType.INDENT ts = countTT TokenType.DEDENT ts
      ∧ (∀ p, p <+: ts → countTT TokenType.DEDENT p ≤ countTT TokenType.INDENT p)
      ∧ ∃ pre ln, ts = pre ++ [{ type := TokenType.EOF, line := ln, column := 1 }]
          ∧ countTT TokenType.INDENT pre = countTT TokenType.DEDENT pre := by
  intro src ts h
  unfold tokenize at h
  cases hx : lexLoop (src.length + 1) src { line := 1, col := 1, tokens := [], stack := [0] } with
  | none => rw [hx] at h; exact absurd h (by simp)
  | some r =>
    rw [hx] at h
    cases r with
    | error e => exact absurd h (by simp)
    | ok st =>
      simp only [Option.some.injEq, Except.ok.injEq] at h
      subst h
      have hinv0 : LInv { line := 1, col := 1, tokens := [], stack := [0] } := by
        refine ⟨by simp [countTT_nil], ⟨[], rfl⟩, ?_⟩
        intro p hp
        have : p = [] := List.prefix_nil.mp hp
        subst this
        exact Nat.le_refl _
      have hinv := lexLoop_inv _ _ _ _ hx hinv0
      exact handleEof_spec st hinv

/-- C9 witness. -/
theorem indent_dedent_balanced_w :
    tokenize Examples.demoSrc.data = some (Except.ok Examples.demoToks)
    ∧ countTT TokenType.INDENT Examples.demoToks = countTT TokenType.DEDENT Examples.demoToks
    ∧ (∀ p, p <+: Examples.demoToks →
        countTT TokenType.DEDENT p ≤ countTT TokenType.INDENT p) :=
  ⟨rfl, (indent_dedent_balanced Examples.demoSrc.data Examples.demoToks rfl).1,
    (indent_dedent_balanced Examples.demoSrc.data Examples.demoToks rfl).2.1⟩

end Flowa
